import Mathlib

/-!
The dlib `random_cropper` (dlib/image_transforms/random_cropper.h)

A shallow embedding of the random cropper and theorems about it.

Conventions of the embedding.

* A C++ `double` is the rational number it stands for (`ℚ`).  The arithmetic
  of lines 138, 186-192 and 234-236 rounds every result to the nearest binary64
  number (`to_double`, ties to even), as the machine does; infinities and NaN
  are outside the model.  A decimal literal of the source (`0.1`, `0.7`,
  `0.466666666`) is the binary64 number nearest to it.  Comparisons are exact.
  The angle of line 200 is kept as the exact product, and `dlib::rand` (not
  among the sources) is modelled without rounding.
* `long` and `unsigned long` values are `Int` and `Nat`; a conversion from
  `double` that leaves the range of `long` is undefined behaviour.
* Every member function that can stop abnormally returns a pair
  `Except failure α × state`, so what is left behind after a failure is
  visible.  `failure.fatal_error` is a fired `DLIB_CASSERT`.
* `while` loops take a `fuel` bound; running out of it is
  `failure.out_of_fuel`.
* Code of dlib that is not part of `random_cropper.h` (the generator
  `dlib::rand`, the image type and the chip extraction, the constant `pi`)
  is a parameter, collected in `externals`.  The integer geometry of
  `dlib::rectangle` is modelled explicitly.
-/

set_option maxRecDepth 8000

namespace dlib

/-- Ways a call can stop without returning. -/
inductive failure where
  /-- a `DLIB_CASSERT` fired -/
  | fatal_error
  /-- undefined behaviour of C++ (modulo by zero, read past the end) -/
  | undefined
  /-- the loop bound of the model was exhausted -/
  | out_of_fuel
deriving DecidableEq, Repr

/-! ## The arithmetic of `double` (IEEE 754 binary64) -/

/-- The power `2^t` as a rational number. -/
def pow2 (t : Int) : ℚ :=
  if 0 ≤ t then ((2 ^ t.toNat : Nat) : ℚ) else 1 / ((2 ^ (-t).toNat : Nat) : ℚ)

/-- The number of binary digits of `n`, computed with `fuel` halvings at most. -/
def bit_length_aux : Nat → Nat → Nat
  | 0, _ => 0
  | fuel + 1, n => if n = 0 then 0 else bit_length_aux fuel (n / 2) + 1

/-- The number of binary digits of `n` (0 for 0). -/
def bit_length (n : Nat) : Nat := bit_length_aux n n

/-- The binary exponent of a non-zero `x`: the `e` with `2^e ≤ |x| < 2^(e+1)`. -/
def binade (x : ℚ) : Int :=
  let e0 : Int := (bit_length x.num.natAbs : Int) - (bit_length x.den : Int)
  if pow2 e0 ≤ |x| then e0 else e0 - 1

/-- The nearest integer, a tie going to the even neighbour. -/
def round_half_even (m : ℚ) : Int :=
  if m - ⌊m⌋ < 1 / 2 then ⌊m⌋
  else if 1 / 2 < m - ⌊m⌋ then ⌊m⌋ + 1
  else if ⌊m⌋ % 2 = 0 then ⌊m⌋ else ⌊m⌋ + 1

/-- The distance between neighbouring binary64 numbers around `x`: 53 significant
bits, and `2^-1074` below the smallest normal number `2^-1022`. -/
def ulp (x : ℚ) : ℚ := pow2 (max (binade x) (-1022) - 52)

/-- The result of a `double` operation whose exact result is `x`: the nearest binary64
number, ties to even.  (No overflow: results beyond the largest `double` are outside
the model.) -/
def to_double (x : ℚ) : ℚ :=
  if x = 0 then 0 else (round_half_even (x / ulp x) : ℚ) * ulp x

/-- The binary64 numbers: `k * 2^j` with `|k| < 2^53` and `j ≥ -1074`. -/
def is_double (f : ℚ) : Prop :=
  ∃ k j : Int, |k| < 2 ^ 53 ∧ -1074 ≤ j ∧ f = (k : ℚ) * (2 : ℚ) ^ j

/-! ## Conversions between `double` and integers -/

/-- Conversion of a `double` to `long` or `unsigned long`: the fractional part is
discarded (truncation toward zero). -/
def trunc_to_long (x : ℚ) : Int :=
  if 0 ≤ x then ⌊x⌋ else ⌈x⌉

/-- The C function `std::round`: nearest integer, halfway cases away from zero. -/
def std_round (x : ℚ) : Int :=
  if 0 ≤ x then ⌊x + 1 / 2⌋ else ⌈x - 1 / 2⌉

/-- Modelled from the spec: the conversion of a `dpoint` coordinate to a `point`
coordinate, which is missing from the sources; dlib rounds with
`floor(x + 0.5)` ("rounded to integer coordinates"), the sum being a `double`. -/
def round_coord (x : ℚ) : Int :=
  ⌊to_double (x + 1 / 2)⌋

/-! ## Geometry (`dlib::rectangle`) -/

/-- Modelled from the spec: `dlib::rectangle`, whose header is missing from the
sources: an integer rectangle given by its left, top, right and bottom
coordinates, all inclusive. -/
structure rectangle where
  l : Int
  t : Int
  r : Int
  b : Int
deriving DecidableEq, Repr

namespace rectangle

/-- Modelled from the spec: `rectangle::is_empty`, missing from the sources. -/
def is_empty (a : rectangle) : Bool :=
  decide (a.t > a.b) || decide (a.l > a.r)

/-- Modelled from the spec: `rectangle::width`, missing from the sources
(0 for an empty rectangle). -/
def width (a : rectangle) : Nat :=
  if a.is_empty then 0 else (a.r - a.l + 1).toNat

/-- Modelled from the spec: `rectangle::height`, missing from the sources
(0 for an empty rectangle). -/
def height (a : rectangle) : Nat :=
  if a.is_empty then 0 else (a.b - a.t + 1).toNat

/-- Modelled from the spec: `rectangle::area`, missing from the sources. -/
def area (a : rectangle) : Nat :=
  a.width * a.height

/-- Modelled from the spec: `rectangle::intersect`, missing from the sources. -/
def intersect (a rhs : rectangle) : rectangle :=
  ⟨max a.l rhs.l, max a.t rhs.t, min a.r rhs.r, min a.b rhs.b⟩

/-- Modelled from the spec: `rectangle::operator+`, missing from the sources: the
smallest rectangle holding both. -/
def add (a rhs : rectangle) : rectangle :=
  if rhs.is_empty then a
  else if a.is_empty then rhs
  else ⟨min a.l rhs.l, min a.t rhs.t, max a.r rhs.r, max a.b rhs.b⟩

/-- Modelled from the spec: `rectangle::contains(const rectangle&)`, missing from
the sources: `rect + *this == *this`. -/
def contains (a rect : rectangle) : Bool :=
  decide (rect.add a = a)

end rectangle

/-- Modelled from the spec: the constructor `rectangle(unsigned long w, unsigned long h)`,
missing from the sources: the rectangle with top left corner (0,0) of that size. -/
def rectangle_of_size (w h : Nat) : rectangle :=
  ⟨0, 0, (w : Int) - 1, (h : Int) - 1⟩

/-- Modelled from the spec: `center(rectangle)`, missing from the sources. -/
def center (rect : rectangle) : Int × Int :=
  let x := rect.l + rect.r + 1
  let y := rect.t + rect.b + 1
  let x1 := if x < 0 then x - 1 else x
  let y1 := if y < 0 then y - 1 else y
  (Int.tdiv x1 2, Int.tdiv y1 2)

/-- Modelled from the spec: `centered_rect(point, width, height)`, missing from the
sources: "the square centered at the perturbed center with that side length". -/
def centered_rect (p : Int × Int) (width height : Nat) : rectangle :=
  let left := p.1 - Int.tdiv (width : Int) 2
  let top := p.2 - Int.tdiv (height : Int) 2
  ⟨left, top, left + width - 1, top + height - 1⟩

/-- Modelled from the spec: `move_rect(rect, offset)`, missing from the sources. -/
def move_rect (rect : rectangle) (offset : Int × Int) : rectangle :=
  ⟨rect.l + offset.1, rect.t + offset.2, rect.r + offset.1, rect.b + offset.2⟩

/-- Modelled from the spec: `impl::flip_rect_left_right`, missing from the sources:
"a left-right rectangle reflection about the chip's own bounds". -/
def flip_rect_left_right (rect window : rectangle) : rectangle :=
  let left_dist := rect.l - window.l
  let right := window.r - left_dist
  ⟨right - rect.width + 1, rect.t, right, rect.b⟩

/-! ## Boxes, chips and plans -/

/-- Output chip size, `chip_dims`. -/
structure chip_dims where
  rows : Nat
  cols : Nat
deriving DecidableEq, Repr

/-- A labelled box, `mmod_rect`: a rectangle, its ignore flag, and the fields the
cropper never touches. -/
structure mmod_rect where
  rect : rectangle
  detection_confidence : ℚ
  ignore : Bool
  label : String
deriving DecidableEq, Repr

/-- A crop plan, `chip_details`: the source rectangle, the rotation angle in
radians and the size of the chip. -/
structure chip_details where
  rect : rectangle
  angle : ℚ
  rows : Nat
  cols : Nat
deriving DecidableEq, Repr

/-- What the cropper borrows from the rest of dlib. -/
structure externals (image σ : Type) where
  /-- `img.nr()` -/
  nr : image → Nat
  /-- `img.nc()` -/
  nc : image → Nat
  /-- a default constructed image (what `resize` fills new slots with) -/
  empty_image : image
  /-- `extract_image_chip(img, plan, crop)`, the value left in `crop` -/
  extract_image_chip : image → chip_details → image
  /-- `get_mapping_to_chip(plan)` applied to a rectangle -/
  get_mapping_to_chip : chip_details → rectangle → rectangle
  /-- `flip_image_left_right(img, out)`, the value left in `out` -/
  flip_image_left_right : image → image
  /-- `rnd.get_random_double()` -/
  get_random_double : σ → ℚ × σ
  /-- `rnd.get_random_32bit_number()` -/
  get_random_32bit_number : σ → Nat × σ
  /-- `rnd.get_random_64bit_number()` -/
  get_random_64bit_number : σ → Nat × σ
  /-- the constant `pi` -/
  pi : ℚ

/-- The contract of `dlib::rand` that the cropper relies on: a uniform draw lies in
`[0,1)`. -/
def externals.uniform_draws {image σ : Type} (X : externals image σ) : Prop :=
  ∀ rnd : σ, 0 ≤ (X.get_random_double rnd).1 ∧ (X.get_random_double rnd).1 < 1

/-- Modelled from the spec: `rand::get_double_in_range(begin, end)`, missing from the
sources: `Uniform(begin, end)`, computed from one uniform draw. -/
def get_double_in_range {image σ : Type} (X : externals image σ) (begin_ end_ : ℚ)
    (rnd : σ) : ℚ × σ :=
  let d := X.get_random_double rnd
  (begin_ + d.1 * (end_ - begin_), d.2)

/-- Modelled from the spec: `get_rect(img)`, missing from the sources: the rectangle
of all pixels of an image. -/
def get_rect {image σ : Type} (X : externals image σ) (img : image) : rectangle :=
  ⟨0, 0, (X.nc img : Int) - 1, (X.nr img : Int) - 1⟩

/-! ## The cropper: configuration -/

/-- The data members of `random_cropper` (lines 18-23); the generator `rnd` is
passed separately. -/
structure random_cropper where
  dims : chip_dims
  randomly_flip : Bool
  max_rotation_degrees : ℚ
  min_object_height : ℚ
  max_object_height : ℚ
  background_crops_fraction : ℚ
deriving DecidableEq, Repr

namespace random_cropper

/-- The default member initialisers (lines 18-23); the literals `0.7` and `0.1` are the
`double` numbers nearest to them, `30` and `0.25` are `double` numbers. -/
def default_constructed : random_cropper :=
  { dims := ⟨300, 300⟩
    randomly_flip := true
    max_rotation_degrees := 30
    min_object_height := 1 / 4
    max_object_height := to_double (7 / 10)
    background_crops_fraction := to_double (1 / 10) }

def get_background_crops_fraction (self : random_cropper) : ℚ :=
  self.background_crops_fraction

def set_background_crops_fraction (self : random_cropper) (value : ℚ) :
    Except failure Unit × random_cropper :=
  if 0 ≤ value ∧ value < 1 then
    (.ok (), { self with background_crops_fraction := value })
  else (.error .fatal_error, self)

def get_chip_dims (self : random_cropper) : chip_dims :=
  self.dims

def set_chip_dims (self : random_cropper) (dims_ : chip_dims) :
    Except failure Unit × random_cropper :=
  (.ok (), { self with dims := dims_ })

def set_chip_dims_rows_cols (self : random_cropper) (rows cols : Nat) :
    Except failure Unit × random_cropper :=
  self.set_chip_dims ⟨rows, cols⟩

def get_randomly_flip (self : random_cropper) : Bool :=
  self.randomly_flip

def set_randomly_flip (self : random_cropper) (value : Bool) :
    Except failure Unit × random_cropper :=
  (.ok (), { self with randomly_flip := value })

def get_max_rotation_degrees (self : random_cropper) : ℚ :=
  self.max_rotation_degrees

def set_max_rotation_degrees (self : random_cropper) (value : ℚ) :
    Except failure Unit × random_cropper :=
  (.ok (), { self with max_rotation_degrees := |value| })

def get_min_object_height (self : random_cropper) : ℚ :=
  self.min_object_height

def set_min_object_height (self : random_cropper) (value : ℚ) :
    Except failure Unit × random_cropper :=
  if 0 < value ∧ value < 1 then
    (.ok (), { self with min_object_height := value })
  else (.error .fatal_error, self)

def get_max_object_height (self : random_cropper) : ℚ :=
  self.max_object_height

def set_max_object_height (self : random_cropper) (value : ℚ) :
    Except failure Unit × random_cropper :=
  if 0 < value ∧ value < 1 then
    (.ok (), { self with max_object_height := value })
  else (.error .fatal_error, self)

/-- The configuration invariant of the data model. -/
def invariant (self : random_cropper) : Prop :=
  0 < self.min_object_height ∧ self.min_object_height < 1 ∧
  0 < self.max_object_height ∧ self.max_object_height < 1 ∧
  0 ≤ self.background_crops_fraction ∧ self.background_crops_fraction < 1 ∧
  0 ≤ self.max_rotation_degrees

/-- One call of a setter. -/
inductive setter_call where
  | set_background_crops_fraction (value : ℚ)
  | set_chip_dims (dims_ : chip_dims)
  | set_chip_dims_rows_cols (rows cols : Nat)
  | set_randomly_flip (value : Bool)
  | set_max_rotation_degrees (value : ℚ)
  | set_min_object_height (value : ℚ)
  | set_max_object_height (value : ℚ)
deriving DecidableEq, Repr

/-- Running one setter call on a cropper. -/
def run_setter (self : random_cropper) : setter_call → Except failure Unit × random_cropper
  | .set_background_crops_fraction value => self.set_background_crops_fraction value
  | .set_chip_dims dims_ => self.set_chip_dims dims_
  | .set_chip_dims_rows_cols rows cols => self.set_chip_dims_rows_cols rows cols
  | .set_randomly_flip value => self.set_randomly_flip value
  | .set_max_rotation_degrees value => self.set_max_rotation_degrees value
  | .set_min_object_height value => self.set_min_object_height value
  | .set_max_object_height value => self.set_max_object_height value

/-- The configurations a program can reach: a default constructed cropper, followed
by setter calls that returned normally. -/
inductive reachable : random_cropper → Prop where
  | start : reachable default_constructed
  | step (self next : random_cropper) (call : setter_call) :
      reachable self → run_setter self call = (.ok (), next) → reachable next

end random_cropper

/-! ## The cropper: planning a crop (lines 173-241) -/

/-- Lines 204-214. -/
def has_non_ignored_box : List mmod_rect → Bool
  | [] => false
  | b :: rest => if !b.ignore then true else has_non_ignored_box rest

/-- The loop of `randomly_pick_rect` (lines 222-223), entered with the current `idx`;
`fuel` bounds the number of further draws. -/
def randomly_pick_rect_loop {image σ : Type} (X : externals image σ)
    (rects : List mmod_rect) : Nat → Nat → σ → Except failure Nat × σ
  | 0, idx, rnd =>
    match rects[idx]? with
    | none => (.error .undefined, rnd)
    | some b => if b.ignore then (.error .out_of_fuel, rnd) else (.ok idx, rnd)
  | fuel + 1, idx, rnd =>
    match rects[idx]? with
    | none => (.error .undefined, rnd)
    | some b =>
      if b.ignore then
        let d := X.get_random_64bit_number rnd
        randomly_pick_rect_loop X rects fuel (d.1 % rects.length) d.2
      else (.ok idx, rnd)

/-- Lines 216-225. -/
def randomly_pick_rect {image σ : Type} (fuel : Nat) (X : externals image σ)
    (rects : List mmod_rect) (rnd : σ) : Except failure Nat × σ :=
  if has_non_ignored_box rects then
    let d := X.get_random_64bit_number rnd
    randomly_pick_rect_loop X rects fuel (d.1 % rects.length) d.2
  else (.error .fatal_error, rnd)

/-- Line 192: the side of the crop square for an object of height `h` and a scale
draw `s`, `const long box_size = rect.height()/rand_scale_perturb`: the height is
converted to `double`, the quotient is a `double`, and its fractional part is
discarded. -/
def box_size (h : Nat) (rand_scale_perturb : ℚ) : Int :=
  trunc_to_long (to_double (to_double (h : ℚ) / rand_scale_perturb))

/-- Lines 184-193: the crop rectangle around the box `rect` for the three draws
`tx`, `ty` (translation) and `rand_scale_perturb`.  The two products are `double`
products; `box_size`, not negative here, is passed as `unsigned long`. -/
def object_crop_rect (rect : rectangle) (tx ty rand_scale_perturb : ℚ) : rectangle :=
  let rand_translate : Int × Int :=
    (round_coord (to_double (tx * to_double (rect.width : ℚ))),
     round_coord (to_double (ty * to_double (rect.height : ℚ))))
  let side := (box_size rect.height rand_scale_perturb).toNat
  let c := center rect
  centered_rect (c.1 + rand_translate.1, c.2 + rand_translate.2) side side

/-- Lines 184-193 with their draws, in the order they are written.  The literals
`-0.1` and `0.1` are the `double` numbers nearest to them.  Converting the quotient of
line 192 to `long` is undefined behaviour when the scale is zero or the quotient
leaves the range of `long`. -/
def object_centered_crop {image σ : Type} (fuel : Nat) (X : externals image σ)
    (self : random_cropper) (rects : List mmod_rect) (rnd : σ) :
    Except failure rectangle × σ :=
  match randomly_pick_rect fuel X rects rnd with
  | (.error e, rnd1) => (.error e, rnd1)
  | (.ok idx, rnd1) =>
    match rects[idx]? with
    | none => (.error .undefined, rnd1)
    | some picked =>
      let tx := get_double_in_range X (-to_double (1 / 10)) (to_double (1 / 10)) rnd1
      let ty := get_double_in_range X (-to_double (1 / 10)) (to_double (1 / 10)) tx.2
      let s := get_double_in_range X self.min_object_height self.max_object_height ty.2
      if s.1 ≠ 0 ∧ -(2 : Int) ^ 63 ≤ box_size picked.rect.height s.1 ∧
          box_size picked.rect.height s.1 < 2 ^ 63 then
        (.ok (object_crop_rect picked.rect tx.1 ty.1 s.1), s.2)
      else (.error .undefined, s.2)

/-- Line 233, the constant `mins`: the `double` nearest to 0.466666666. -/
def resnet_mins : ℚ := to_double (466666666 / 1000000000)

/-- Line 233, the constant `maxs` (0.875 is a `double`). -/
def resnet_maxs : ℚ := 875 / 1000

/-- Line 234: `scale = mins + u*(maxs-mins)` for a uniform draw `u`, each operation
a `double` operation. -/
def resnet_scale (u : ℚ) : ℚ :=
  to_double (resnet_mins + to_double (u * to_double (resnet_maxs - resnet_mins)))

/-- Lines 234-236: the side of the background square for a uniform draw `u`: the
`double` product of the scale and the smaller image dimension, converted to
`unsigned long`. -/
def resnet_side {image σ : Type} (X : externals image σ) (img : image) (u : ℚ) : Nat :=
  let size := to_double (resnet_scale u * to_double ((min (X.nr img) (X.nc img) : Nat) : ℚ))
  (trunc_to_long size).toNat

/-- Lines 227-241.  The two moduli are computed in `unsigned long`; a zero modulus
is undefined behaviour. -/
def make_random_cropping_rect_resnet {image σ : Type} (X : externals image σ)
    (img : image) (rnd : σ) : Except failure rectangle × σ :=
  let d := X.get_random_double rnd
  let side := resnet_side X img d.1
  let rect := rectangle_of_size side side
  let mx := (((X.nc img : Int) - rect.width) % 2 ^ 64).toNat
  let my := (((X.nr img : Int) - rect.height) % 2 ^ 64).toNat
  let dx := X.get_random_32bit_number d.2
  let dy := X.get_random_32bit_number dx.2
  if mx = 0 ∨ my = 0 then (.error .undefined, dy.2)
  else (.ok (move_rect rect ((dx.1 % mx : Nat), (dy.1 % my : Nat))), dy.2)

/-- Lines 181-198: the choice of the crop rectangle. -/
def choose_crop_rect {image σ : Type} (fuel : Nat) (X : externals image σ)
    (self : random_cropper) (img : image) (rects : List mmod_rect) (rnd : σ) :
    Except failure rectangle × σ :=
  if has_non_ignored_box rects then
    let d := X.get_random_double rnd
    if d.1 ≥ self.background_crops_fraction then
      object_centered_crop fuel X self rects d.2
    else make_random_cropping_rect_resnet X img d.2
  else make_random_cropping_rect_resnet X img rnd

/-- Line 199: the flip decision; the draw is made only when `randomly_flip` is set. -/
def draw_should_flip_crop {image σ : Type} (X : externals image σ)
    (self : random_cropper) (rnd : σ) : Bool × σ :=
  if self.randomly_flip then
    let d := X.get_random_double rnd
    (decide (d.1 > 1 / 2), d.2)
  else (false, rnd)

/-- Line 200, before the conversion to radians: the rotation in degrees. -/
def draw_rotation_degrees {image σ : Type} (X : externals image σ)
    (self : random_cropper) (rnd : σ) : ℚ × σ :=
  get_double_in_range X (-self.max_rotation_degrees) self.max_rotation_degrees rnd

/-- Lines 173-202. -/
def make_crop_plan {image σ : Type} (fuel : Nat) (X : externals image σ)
    (self : random_cropper) (img : image) (rects : List mmod_rect) (rnd : σ) :
    Except failure (chip_details × Bool) × σ :=
  match choose_crop_rect fuel X self img rects rnd with
  | (.error e, rnd1) => (.error e, rnd1)
  | (.ok crop_rect, rnd1) =>
    let flip := draw_should_flip_crop X self rnd1
    let deg := draw_rotation_degrees X self flip.2
    let angle := deg.1 * X.pi / 180
    (.ok (⟨crop_rect, angle, self.dims.rows, self.dims.cols⟩, flip.1), deg.2)

/-! ## The cropper: cropping (lines 85-168) -/

/-- Line 138: `std::round(min_object_height*crop_plan.rows)`, the rows converted to
`double` and the product a `double` product. -/
def min_object_height_absolute (self : random_cropper) (crop_plan : chip_details) : Nat :=
  (std_round (to_double (self.min_object_height * to_double (crop_plan.rows : ℚ)))).toNat

/-- Lines 143-157: the loop over the input boxes; `crop_rects` is the output list
built so far, `chip` is `get_rect(crop)`. -/
def map_rects_loop (chip : rectangle) (tform : rectangle → rectangle)
    (min_object_height_absolute : Nat) :
    List mmod_rect → List mmod_rect → List mmod_rect
  | [], crop_rects => crop_rects
  | rect :: rest, crop_rects =>
    let rect1 := { rect with rect := tform rect.rect }
    if (chip.intersect rect1.rect).area ≠ 0 then
      let rect2 :=
        if !chip.contains rect1.rect || decide (rect1.rect.height < min_object_height_absolute)
        then { rect1 with ignore := true } else rect1
      map_rects_loop chip tform min_object_height_absolute rest (crop_rects ++ [rect2])
    else map_rects_loop chip tform min_object_height_absolute rest crop_rects

/-- Lines 165-166: the flip of the box rectangles. -/
def flip_crop_rects (window : rectangle) : List mmod_rect → List mmod_rect
  | [] => []
  | rect :: rest =>
    { rect with rect := flip_rect_left_right rect.rect window } :: flip_crop_rects window rest

/-- Lines 135-167: the single image crop once the plan is made.  Returns the new
values of `crop` and `crop_rects`; the values they held before are overwritten. -/
def apply_crop_plan {image σ : Type} (X : externals image σ) (self : random_cropper)
    (img : image) (rects : List mmod_rect) (crop_plan : chip_details)
    (should_flip_crop : Bool) (_crop : image) (_crop_rects : List mmod_rect) :
    image × List mmod_rect :=
  let crop1 := X.extract_image_chip img crop_plan
  let tform := X.get_mapping_to_chip crop_plan
  let crop_rects1 :=
    map_rects_loop (get_rect X crop1) tform (min_object_height_absolute self crop_plan) rects []
  if should_flip_crop then
    let crop2 := X.flip_image_left_right crop1
    (crop2, flip_crop_rects (get_rect X crop2) crop_rects1)
  else (crop1, crop_rects1)

/-- Lines 124-168: the single image `operator()`.  The result is the outcome with the
values of `crop`, `crop_rects` and `rnd` after the call. -/
def operator_single {image σ : Type} (fuel : Nat) (X : externals image σ)
    (self : random_cropper) (img : image) (rects : List mmod_rect)
    (crop : image) (crop_rects : List mmod_rect) (rnd : σ) :
    Except failure Unit × image × List mmod_rect × σ :=
  match make_crop_plan fuel X self img rects rnd with
  | (.error e, rnd1) => (.error e, crop, crop_rects, rnd1)
  | (.ok (crop_plan, should_flip_crop), rnd1) =>
    let out := apply_crop_plan X self img rects crop_plan should_flip_crop crop crop_rects
    (.ok (), out.1, out.2, rnd1)

/-- Lines 105-118: the pool `operator()`. -/
def operator_pool {image σ : Type} (fuel : Nat) (X : externals image σ)
    (self : random_cropper) (images : List image) (rects : List (List mmod_rect))
    (crop : image) (crop_rects : List mmod_rect) (rnd : σ) :
    Except failure Unit × image × List mmod_rect × σ :=
  if images.length = rects.length then
    let d := X.get_random_64bit_number rnd
    if images.length = 0 then (.error .undefined, crop, crop_rects, d.2)
    else
      let idx := d.1 % images.length
      match images[idx]?, rects[idx]? with
      | some img, some boxes => operator_single fuel X self img boxes crop crop_rects d.2
      | _, _ => (.error .undefined, crop, crop_rects, d.2)
  else (.error .fatal_error, crop, crop_rects, rnd)

/-- The call `v.resize(n)` of a vector: keeps the first `n` elements and fills up with
default constructed ones. -/
def resize {α : Type} (v : List α) (n : Nat) (fill : α) : List α :=
  v.take n ++ List.replicate (n - v.length) fill

/-- Lines 96-98: the tasks `i = first, first+1, ...` of the `parallel_for`, run one
after the other in index order (one of the schedules the mutex allows); a task that
fails stops the loop. -/
def batch_loop {image σ : Type} (fuel : Nat) (X : externals image σ)
    (self : random_cropper) (images : List image) (rects : List (List mmod_rect)) :
    Nat → Nat → List image → List (List mmod_rect) → σ →
    Except failure Unit × List image × List (List mmod_rect) × σ
  | 0, _, crops, crop_rects, rnd => (.ok (), crops, crop_rects, rnd)
  | todo + 1, i, crops, crop_rects, rnd =>
    match crops[i]?, crop_rects[i]? with
    | some crop_i, some crop_rects_i =>
      match operator_pool fuel X self images rects crop_i crop_rects_i rnd with
      | (.error e, crop1, crop_rects1, rnd1) =>
        (.error e, crops.set i crop1, crop_rects.set i crop_rects1, rnd1)
      | (.ok (), crop1, crop_rects1, rnd1) =>
        batch_loop fuel X self images rects todo (i + 1)
          (crops.set i crop1) (crop_rects.set i crop_rects1) rnd1
    | _, _ => (.error .undefined, crops, crop_rects, rnd)

/-- Lines 85-99: the batch `operator()`. -/
def operator_batch {image σ : Type} (fuel : Nat) (X : externals image σ)
    (self : random_cropper) (num_crops : Nat) (images : List image)
    (rects : List (List mmod_rect)) (crops : List image)
    (crop_rects : List (List mmod_rect)) (rnd : σ) :
    Except failure Unit × List image × List (List mmod_rect) × σ :=
  if images.length = rects.length then
    batch_loop fuel X self images rects num_crops 0
      (resize crops num_crops X.empty_image) (resize crop_rects num_crops []) rnd
  else (.error .fatal_error, crops, crop_rects, rnd)

/-! ## Concrete collaborators, to run the model on examples -/

/-- An image reduced to what the cropper reads of it: its size. -/
structure sized_image where
  nr : Nat
  nc : Nat
deriving DecidableEq, Repr

/-- The chip mapping of an unrotated plan: translate by the corner of the source
rectangle, scale to the chip, round each coordinate. -/
def axis_aligned_mapping (crop_plan : chip_details) (rect : rectangle) : rectangle :=
  let sx : ℚ := (crop_plan.cols : ℚ) / (crop_plan.rect.width : ℚ)
  let sy : ℚ := (crop_plan.rows : ℚ) / (crop_plan.rect.height : ℚ)
  ⟨round_coord (((rect.l - crop_plan.rect.l : Int) : ℚ) * sx),
   round_coord (((rect.t - crop_plan.rect.t : Int) : ℚ) * sy),
   round_coord (((rect.r - crop_plan.rect.l : Int) : ℚ) * sx),
   round_coord (((rect.b - crop_plan.rect.t : Int) : ℚ) * sy)⟩

/-- Collaborators for concrete runs: images are sizes, the chip has the size the plan
asks for, the generator replays a recorded list of raw draws (a raw draw `w` read as a
uniform double is `(w mod 1000)/1000`, an exhausted list yields 0), and `pi` is
`355/113`. -/
def replay : externals sized_image (List Nat) where
  nr := fun img => img.nr
  nc := fun img => img.nc
  empty_image := ⟨0, 0⟩
  extract_image_chip := fun _ crop_plan => ⟨crop_plan.rows, crop_plan.cols⟩
  get_mapping_to_chip := axis_aligned_mapping
  flip_image_left_right := fun img => img
  get_random_double := fun rnd => (((rnd.headD 0 % 1000 : Nat) : ℚ) / 1000, rnd.tail)
  get_random_32bit_number := fun rnd => (rnd.headD 0 % 2 ^ 32, rnd.tail)
  get_random_64bit_number := fun rnd => (rnd.headD 0 % 2 ^ 64, rnd.tail)
  pi := 355 / 113

/-- A 100 x 100 image. -/
def sample_image : sized_image := ⟨100, 100⟩

/-- Five boxes on `sample_image`: a plain object, one that sticks out of the crop
taken around the first, one far away, one that is already ignored, and a tiny one. -/
def sample_boxes : List mmod_rect :=
  [⟨⟨0, 0, 10, 10⟩, 0, false, "a"⟩, ⟨⟨12, 0, 30, 10⟩, 0, false, "b"⟩,
   ⟨⟨50, 50, 60, 60⟩, 0, false, "c"⟩, ⟨⟨2, 2, 9, 9⟩, 0, true, "d"⟩,
   ⟨⟨2, 2, 3, 3⟩, 0, false, "e"⟩]

/-- Raw draws that plan an object centered crop around the first of `sample_boxes`:
source rectangle (-6,-6,16,16), no flip, no rotation. -/
def sample_draws : List Nat := [500, 0, 500, 500, 500, 0, 500]

/-- The same draws with the flip taken. -/
def sample_draws_flipped : List Nat := [500, 0, 500, 500, 500, 900, 500]

/-- Raw draws that plan a background crop of `sample_image` at (52,52,97,97). -/
def sample_draws_background : List Nat := [0, 0, 52, 52, 0, 500]

/-- The default cropper after `set_min_object_height(0.075)`. -/
def small_object_cropper : random_cropper :=
  (random_cropper.default_constructed.set_min_object_height (to_double (75 / 1000))).2

/-! ## The fate of one box, as the specification words it -/

/-- The test of line 149 on an input box: its mapped rectangle has a non-zero-area
intersection with the chip rectangle. -/
def survives (chip : rectangle) (tform : rectangle → rectangle) (b : mmod_rect) : Bool :=
  decide ((chip.intersect (tform b.rect)).area ≠ 0)

/-- The ignore flag of the specification:
`new_ignore = old_ignore OR not_fully_contained OR too_small`. -/
def new_ignore (old_ignore not_fully_contained too_small : Bool) : Bool :=
  old_ignore || not_fully_contained || too_small

/-- The output box the specification assigns to a surviving input box: the mapped
rectangle, the new ignore flag, every other field as it was. -/
def mapped_box (chip : rectangle) (tform : rectangle → rectangle) (threshold : Nat)
    (b : mmod_rect) : mmod_rect :=
  { b with
    rect := tform b.rect,
    ignore := (new_ignore b.ignore (!chip.contains (tform b.rect))
      (decide ((tform b.rect).height < threshold))) }

/-! ## Names for what the planner decides and draws -/

/-- Line 182: the test that selects object centered sampling.  As in C++, the draw is
made only when the list has a non-ignored box. -/
def object_branch_taken {image σ : Type} (X : externals image σ) (self : random_cropper)
    (rects : List mmod_rect) (rnd : σ) : Bool :=
  has_non_ignored_box rects &&
    decide ((X.get_random_double rnd).1 ≥ self.background_crops_fraction)

/-- The state of the generator after `k` calls of `get_random_64bit_number`. -/
def after_64bit_draws {image σ : Type} (X : externals image σ) : Nat → σ → σ
  | 0, rnd => rnd
  | k + 1, rnd => after_64bit_draws X k (X.get_random_64bit_number rnd).2

/-- The value of call number `k` (counted from 0) of `get_random_64bit_number` when the
generator starts in state `rnd`. -/
def nth_64bit_draw {image σ : Type} (X : externals image σ) (k : Nat) (rnd : σ) : Nat :=
  (X.get_random_64bit_number (after_64bit_draws X k rnd)).1

/-- Modelled from the spec: the size of the images that `extract_image_chip` and
`flip_image_left_right` produce, both missing from the sources: "extraction always
resamples to target size", and a flipped image has the size of the image it is the
flip of. -/
def externals.chip_contract {image σ : Type} (X : externals image σ) : Prop :=
  (∀ (img : image) (crop_plan : chip_details),
    X.nr (X.extract_image_chip img crop_plan) = crop_plan.rows ∧
    X.nc (X.extract_image_chip img crop_plan) = crop_plan.cols) ∧
  (∀ img : image,
    X.nr (X.flip_image_left_right img) = X.nr img ∧
    X.nc (X.flip_image_left_right img) = X.nc img)

/-! ## Lemmas on the arithmetic of `double` -/

theorem pow2_eq (t : Int) : pow2 t = (2 : ℚ) ^ t := by
  unfold pow2
  split_ifs with h
  · have ht : t = (t.toNat : Int) := (Int.toNat_of_nonneg h).symm
    conv_rhs => rw [ht]
    rw [zpow_natCast]
    push_cast
    rfl
  · have h' : 0 ≤ -t := by omega
    have ht : t = -((-t).toNat : Int) := by rw [Int.toNat_of_nonneg h']; ring
    conv_rhs => rw [ht]
    rw [zpow_neg, zpow_natCast]
    push_cast
    rw [one_div]

theorem bit_length_aux_zero (fuel : Nat) : bit_length_aux fuel 0 = 0 := by
  cases fuel <;> simp [bit_length_aux]

theorem bit_length_aux_spec (fuel : Nat) :
    ∀ n : Nat, n ≤ fuel → 0 < n →
      ∃ a : Nat, bit_length_aux fuel n = a + 1 ∧ 2 ^ a ≤ n ∧ n < 2 ^ (a + 1) := by
  induction fuel with
  | zero => intro n h1 h2; omega
  | succ fuel ih =>
    intro n h1 h2
    have hn : n ≠ 0 := by omega
    simp only [bit_length_aux, hn, if_false]
    rcases Nat.eq_zero_or_pos (n / 2) with h0 | hpos
    · refine ⟨0, ?_, ?_, ?_⟩
      · rw [h0, bit_length_aux_zero]
      · simpa using h2
      · have : n < 2 := by omega
        simpa using this
    · obtain ⟨a, ha, hlo, hhi⟩ := ih (n / 2) (by omega) hpos
      refine ⟨a + 1, by rw [ha], ?_, ?_⟩
      · have : 2 ^ (a + 1) = 2 * 2 ^ a := by ring
        omega
      · have : 2 ^ (a + 1 + 1) = 2 * 2 ^ (a + 1) := by ring
        omega

theorem bit_length_spec (n : Nat) (h : 0 < n) :
    ∃ a : Nat, bit_length n = a + 1 ∧ 2 ^ a ≤ n ∧ n < 2 ^ (a + 1) :=
  bit_length_aux_spec n n (Nat.le_refl n) h

theorem binade_spec (x : ℚ) (hx : x ≠ 0) :
    (2 : ℚ) ^ binade x ≤ |x| ∧ |x| < (2 : ℚ) ^ (binade x + 1) := by
  have hnum : 0 < x.num.natAbs := Int.natAbs_pos.mpr (Rat.num_ne_zero.mpr hx)
  have hden : 0 < x.den := x.den_pos
  obtain ⟨a, ha, halo, hahi⟩ := bit_length_spec _ hnum
  obtain ⟨b, hb, hblo, hbhi⟩ := bit_length_spec _ hden
  have habs : |x| = (x.num.natAbs : ℚ) / (x.den : ℚ) := by
    rw [Rat.abs_def, Rat.divInt_eq_div]
    simp [Nat.cast_natAbs]
  have hdq : (0 : ℚ) < (x.den : ℚ) := by exact_mod_cast hden
  have halo' : (2 : ℚ) ^ a ≤ (x.num.natAbs : ℚ) := by exact_mod_cast halo
  have hahi' : (x.num.natAbs : ℚ) < (2 : ℚ) ^ (a + 1) := by exact_mod_cast hahi
  have hblo' : (2 : ℚ) ^ b ≤ (x.den : ℚ) := by exact_mod_cast hblo
  have hbhi' : (x.den : ℚ) < (2 : ℚ) ^ (b + 1) := by exact_mod_cast hbhi
  have hpa : (0 : ℚ) < (2 : ℚ) ^ a := by positivity
  have hpb : (0 : ℚ) < (2 : ℚ) ^ b := by positivity
  have he0 : ((bit_length x.num.natAbs : Int) - (bit_length x.den : Int)) =
      (a : Int) - (b : Int) := by rw [ha, hb]; push_cast; ring
  have hz : ∀ c : Int, (2 : ℚ) ^ ((a : Int) - (b : Int) + c) =
      (2 : ℚ) ^ a / (2 : ℚ) ^ b * (2 : ℚ) ^ c := by
    intro c
    rw [zpow_add₀ (two_ne_zero), zpow_sub₀ (two_ne_zero), zpow_natCast, zpow_natCast]
  have hup : |x| < (2 : ℚ) ^ ((a : Int) - (b : Int) + 1) := by
    rw [hz 1, habs, zpow_one, div_lt_iff₀ hdq]
    have : (2 : ℚ) ^ a / (2 : ℚ) ^ b * 2 * (x.den : ℚ) ≥ (2 : ℚ) ^ a * 2 := by
      rw [ge_iff_le, div_mul_eq_mul_div, div_mul_eq_mul_div, le_div_iff₀ hpb]
      nlinarith
    have h2 : (2 : ℚ) ^ (a + 1) = (2 : ℚ) ^ a * 2 := by ring
    linarith
  have hlow : (2 : ℚ) ^ ((a : Int) - (b : Int) - 1) ≤ |x| := by
    have : ((a : Int) - (b : Int) - 1) = (a : Int) - (b : Int) + (-1) := by ring
    rw [this, hz (-1), habs, le_div_iff₀ hdq, zpow_neg, zpow_one]
    have h2 : (2 : ℚ) ^ (b + 1) = (2 : ℚ) ^ b * 2 := by ring
    have : (2 : ℚ) ^ a / (2 : ℚ) ^ b * 2⁻¹ * (x.den : ℚ) ≤ (2 : ℚ) ^ a := by
      rw [div_mul_eq_mul_div, div_mul_eq_mul_div, div_le_iff₀ hpb]
      nlinarith
    linarith
  unfold binade
  simp only [he0, pow2_eq]
  split_ifs with h
  · exact ⟨h, hup⟩
  · refine ⟨hlow, ?_⟩
    have : (a : Int) - (b : Int) - 1 + 1 = (a : Int) - (b : Int) := by ring
    rw [this]
    exact lt_of_not_le h

theorem round_half_even_bounds (m : ℚ) :
    ⌊m⌋ ≤ round_half_even m ∧ round_half_even m ≤ ⌈m⌉ := by
  have hceil : m - ⌊m⌋ ≠ 0 → ⌊m⌋ + 1 ≤ ⌈m⌉ := by
    intro h
    have hlt : (⌊m⌋ : ℚ) < m := by
      have := Int.floor_le m
      rcases lt_or_eq_of_le this with h1 | h1
      · exact h1
      · exact absurd (by rw [h1]; ring) h
    have := Int.lt_ceil.mpr hlt
    omega
  unfold round_half_even
  split_ifs with h1 h2 h3
  · exact ⟨le_refl _, Int.floor_le_ceil m⟩
  · exact ⟨by omega, hceil (by linarith)⟩
  · exact ⟨le_refl _, Int.floor_le_ceil m⟩
  · refine ⟨by omega, hceil ?_⟩
    intro h0
    rw [h0] at h1
    norm_num at h1

theorem round_half_even_near (m : ℚ) : |((round_half_even m : Int) : ℚ) - m| ≤ 1 / 2 := by
  have hfl := Int.floor_le m
  have hlt := Int.lt_floor_add_one m
  rw [abs_le]
  unfold round_half_even
  split_ifs with h1 h2 h3
  · constructor <;> linarith
  · push_cast; constructor <;> linarith
  · constructor <;> linarith
  · push_cast; constructor <;> linarith

theorem ulp_eq (x : ℚ) : ulp x = (2 : ℚ) ^ (max (binade x) (-1022) - 52) := by
  rw [ulp, pow2_eq]

theorem ulp_pos (x : ℚ) : 0 < ulp x := by
  rw [ulp_eq]; positivity

theorem to_double_of_ne_zero (x : ℚ) (hx : x ≠ 0) :
    to_double x = ((round_half_even (x / ulp x) : Int) : ℚ) * ulp x := by
  simp [to_double, hx]

theorem to_double_error (x : ℚ) : |to_double x - x| ≤ ulp x / 2 := by
  have hq := ulp_pos x
  by_cases hx : x = 0
  · subst hx
    simp only [to_double, if_true, sub_zero, abs_zero]
    positivity
  · rw [to_double_of_ne_zero x hx]
    have hnear := round_half_even_near (x / ulp x)
    have hrw : ((round_half_even (x / ulp x) : Int) : ℚ) * ulp x - x =
        (((round_half_even (x / ulp x) : Int) : ℚ) - x / ulp x) * ulp x := by
      field_simp
    rw [hrw, abs_mul, abs_of_pos hq]
    nlinarith

theorem ulp_le (x : ℚ) (hx : x ≠ 0) :
    ulp x ≤ (2 : ℚ) ^ (-52 : Int) * |x| ∨ ulp x = (2 : ℚ) ^ (-1074 : Int) := by
  obtain ⟨hlo, _⟩ := binade_spec x hx
  rw [ulp_eq]
  rcases le_total (binade x) (-1022) with h | h
  · right
    rw [max_eq_right h]
    norm_num
  · left
    rw [max_eq_left h]
    have h2 : (2 : ℚ) ^ (binade x - 52) = (2 : ℚ) ^ (-52 : Int) * (2 : ℚ) ^ binade x := by
      rw [← zpow_add₀ (two_ne_zero)]
      congr 1
      ring
    rw [h2]
    exact mul_le_mul_of_nonneg_left hlo (by positivity)

theorem to_double_near (x : ℚ) :
    |to_double x - x| ≤ (2 : ℚ) ^ (-53 : Int) * |x| + (2 : ℚ) ^ (-1075 : Int) := by
  have herr := to_double_error x
  have habs := abs_nonneg x
  by_cases hx : x = 0
  · subst hx
    simp only [to_double, if_true, sub_zero, abs_zero, mul_zero, zero_add]
    positivity
  · have h53 : (2 : ℚ) ^ (-53 : Int) = (2 : ℚ) ^ (-52 : Int) / 2 := by norm_num
    have h1075 : (2 : ℚ) ^ (-1075 : Int) = (2 : ℚ) ^ (-1074 : Int) / 2 := by
      rw [show (-1075 : Int) = -1074 + (-1) by norm_num, zpow_add₀ (two_ne_zero)]
      norm_num
    have hp1 : (0 : ℚ) < (2 : ℚ) ^ (-52 : Int) := by positivity
    have hp2 : (0 : ℚ) < (2 : ℚ) ^ (-1074 : Int) := by positivity
    have hnn : 0 ≤ (2 : ℚ) ^ (-52 : Int) * |x| := by positivity
    rw [h53, h1075]
    rcases ulp_le x hx with h | h
    · generalize (2 : ℚ) ^ (-52 : Int) = A at *
      generalize (2 : ℚ) ^ (-1074 : Int) = B at *
      generalize |to_double x - x| = E at *
      generalize |x| = X at *
      calc E ≤ ulp x / 2 := herr
        _ ≤ A * X / 2 := by linarith
        _ ≤ A / 2 * X + B / 2 := by linarith
    · generalize (2 : ℚ) ^ (-52 : Int) = A at *
      generalize (2 : ℚ) ^ (-1074 : Int) = B at *
      generalize |to_double x - x| = E at *
      generalize |x| = X at *
      calc E ≤ ulp x / 2 := herr
        _ = B / 2 := by rw [h]
        _ ≤ A / 2 * X + B / 2 := by linarith

theorem round_half_even_nonneg (m : ℚ) (hm : 0 ≤ m) : 0 ≤ round_half_even m :=
  le_trans (Int.floor_nonneg.mpr hm) (round_half_even_bounds m).1

theorem to_double_nonneg (x : ℚ) (hx : 0 ≤ x) : 0 ≤ to_double x := by
  by_cases h0 : x = 0
  · simp [to_double, h0]
  · rw [to_double_of_ne_zero x h0]
    have hq := ulp_pos x
    have hr := round_half_even_nonneg (x / ulp x) (div_nonneg hx (le_of_lt hq))
    have : (0 : ℚ) ≤ ((round_half_even (x / ulp x) : Int) : ℚ) := by exact_mod_cast hr
    positivity

theorem double_multiple (f : ℚ) (hf : is_double f) (t : Int)
    (hbig : (2 : ℚ) ^ (t + 52) ≤ |f| ∨ t = -1074) :
    ∃ z : Int, f = (z : ℚ) * (2 : ℚ) ^ t := by
  obtain ⟨k, j, hk, hj, rfl⟩ := hf
  by_cases hjt : t ≤ j
  · refine ⟨k * 2 ^ (j - t).toNat, ?_⟩
    have hjn : ((j - t).toNat : Int) = j - t := Int.toNat_of_nonneg (by omega)
    have hsplit : (2 : ℚ) ^ j = (2 : ℚ) ^ (((j - t).toNat : Nat) : Int) * (2 : ℚ) ^ t := by
      rw [← zpow_add₀ (two_ne_zero), hjn]
      congr 1
      ring
    rw [hsplit, zpow_natCast]
    push_cast
    ring
  · exfalso
    have ht2 : t ≠ -1074 := by omega
    rcases hbig with hb | hb
    · have hkq : |(k : ℚ)| < (2 : ℚ) ^ (53 : Int) := by
        have : ((|k| : Int) : ℚ) < ((2 ^ 53 : Int) : ℚ) := by exact_mod_cast hk
        rw [Int.cast_abs] at this
        norm_num at this ⊢
        exact this
      have hpj : (0 : ℚ) < (2 : ℚ) ^ j := by positivity
      have habs : |(k : ℚ) * (2 : ℚ) ^ j| = |(k : ℚ)| * (2 : ℚ) ^ j := by
        rw [abs_mul, abs_of_pos hpj]
      rw [habs] at hb
      have h1 : |(k : ℚ)| * (2 : ℚ) ^ j < (2 : ℚ) ^ (53 : Int) * (2 : ℚ) ^ j :=
        mul_lt_mul_of_pos_right hkq hpj
      have h2 : (2 : ℚ) ^ (53 : Int) * (2 : ℚ) ^ j = (2 : ℚ) ^ (53 + j) := by
        rw [← zpow_add₀ (two_ne_zero)]
      have h3 : (2 : ℚ) ^ (53 + j) ≤ (2 : ℚ) ^ (t + 52) :=
        zpow_le_zpow_right₀ (by norm_num) (by omega)
      linarith
    · exact ht2 hb

theorem to_double_ge_of_double (x f : ℚ) (hx : 0 ≤ x) (hf : is_double f) (hfx : f ≤ x) :
    f ≤ to_double x := by
  by_cases hf0 : f ≤ 0
  · exact le_trans hf0 (to_double_nonneg x hx)
  have hfpos : 0 < f := lt_of_not_le hf0
  have hxpos : 0 < x := lt_of_lt_of_le hfpos hfx
  have hx0 : x ≠ 0 := ne_of_gt hxpos
  obtain ⟨hlo, _⟩ := binade_spec x hx0
  rw [abs_of_pos hxpos] at hlo
  have hq := ulp_pos x
  have hbounds := round_half_even_bounds (x / ulp x)
  rw [to_double_of_ne_zero x hx0]
  have hu := ulp_eq x
  by_cases hc : (2 : ℚ) ^ (max (binade x) (-1022) - 52 + 52) ≤ |f| ∨
      max (binade x) (-1022) - 52 = -1074
  · obtain ⟨z, hz⟩ := double_multiple f hf (max (binade x) (-1022) - 52) hc
    rw [← hu] at hz
    have hzm : (z : ℚ) ≤ x / ulp x := by
      rw [le_div_iff₀ hq, ← hz]
      exact hfx
    have hzr : z ≤ round_half_even (x / ulp x) := le_trans (Int.le_floor.mpr hzm) hbounds.1
    rw [hz]
    exact mul_le_mul_of_nonneg_right (by exact_mod_cast hzr) (le_of_lt hq)
  · push_neg at hc
    obtain ⟨hc1, hc2⟩ := hc
    rw [abs_of_pos hfpos] at hc1
    have he : max (binade x) (-1022) = binade x := by
      rcases le_total (binade x) (-1022) with h | h
      · exfalso
        apply hc2
        rw [max_eq_right h]
        norm_num
      · exact max_eq_left h
    have hsimp : max (binade x) (-1022) - 52 + 52 = binade x := by rw [he]; ring
    rw [hsimp] at hc1
    have hu2 : (2 : ℚ) ^ binade x = (2 : ℚ) ^ (52 : Int) * ulp x := by
      rw [hu, he, ← zpow_add₀ (two_ne_zero)]
      congr 1
      ring
    have hm : ((2 ^ 52 : Int) : ℚ) ≤ x / ulp x := by
      rw [le_div_iff₀ hq]
      have : ((2 ^ 52 : Int) : ℚ) = (2 : ℚ) ^ (52 : Int) := by norm_num
      rw [this, ← hu2]
      exact hlo
    have hr : (2 ^ 52 : Int) ≤ round_half_even (x / ulp x) :=
      le_trans (Int.le_floor.mpr hm) hbounds.1
    have hrq : ((2 ^ 52 : Int) : ℚ) ≤ ((round_half_even (x / ulp x) : Int) : ℚ) := by
      exact_mod_cast hr
    have h52 : ((2 ^ 52 : Int) : ℚ) = (2 : ℚ) ^ (52 : Int) := by norm_num
    calc f ≤ (2 : ℚ) ^ binade x := le_of_lt hc1
      _ = ((2 ^ 52 : Int) : ℚ) * ulp x := by rw [hu2, h52]
      _ ≤ ((round_half_even (x / ulp x) : Int) : ℚ) * ulp x :=
        mul_le_mul_of_nonneg_right hrq (le_of_lt hq)

theorem to_double_le_of_double (x f : ℚ) (hx : 0 ≤ x) (hf : is_double f) (hxf : x ≤ f) :
    to_double x ≤ f := by
  by_cases hx0 : x = 0
  · subst hx0
    simpa [to_double] using hxf
  have hxpos : 0 < x := lt_of_le_of_ne hx (Ne.symm hx0)
  have hfpos : 0 < f := lt_of_lt_of_le hxpos hxf
  obtain ⟨hlo, _⟩ := binade_spec x hx0
  rw [abs_of_pos hxpos] at hlo
  have hq := ulp_pos x
  have hbounds := round_half_even_bounds (x / ulp x)
  rw [to_double_of_ne_zero x hx0]
  have hu := ulp_eq x
  by_cases hc : (2 : ℚ) ^ (max (binade x) (-1022) - 52 + 52) ≤ |f| ∨
      max (binade x) (-1022) - 52 = -1074
  · obtain ⟨z, hz⟩ := double_multiple f hf (max (binade x) (-1022) - 52) hc
    rw [← hu] at hz
    have hzm : x / ulp x ≤ (z : ℚ) := by
      rw [div_le_iff₀ hq, ← hz]
      exact hxf
    have hzr : round_half_even (x / ulp x) ≤ z := le_trans hbounds.2 (Int.ceil_le.mpr hzm)
    rw [hz]
    exact mul_le_mul_of_nonneg_right (by exact_mod_cast hzr) (le_of_lt hq)
  · exfalso
    push_neg at hc
    obtain ⟨hc1, hc2⟩ := hc
    rw [abs_of_pos hfpos] at hc1
    have he : max (binade x) (-1022) = binade x := by
      rcases le_total (binade x) (-1022) with h | h
      · exfalso
        apply hc2
        rw [max_eq_right h]
        norm_num
      · exact max_eq_left h
    have hsimp : max (binade x) (-1022) - 52 + 52 = binade x := by rw [he]; ring
    rw [hsimp] at hc1
    linarith

theorem to_double_zero : to_double 0 = 0 := by
  simp [to_double]

theorem to_double_tenth :
    to_double (1 / 10) = 3602879701896397 / 36028797018963968 := by
  with_unfolding_all rfl

theorem to_double_seven_tenths :
    to_double (7 / 10) = 3152519739159347 / 4503599627370496 := by
  with_unfolding_all rfl

/-! ## Lemmas on the box loop -/

theorem map_rects_loop_eq (chip : rectangle) (tform : rectangle → rectangle)
    (threshold : Nat) (rects acc : List mmod_rect) :
    map_rects_loop chip tform threshold rects acc =
      acc ++ (rects.filter (survives chip tform)).map (mapped_box chip tform threshold) := by
  induction rects generalizing acc with
  | nil => simp [map_rects_loop]
  | cons b rest ih =>
    by_cases hk : (chip.intersect (tform b.rect)).area = 0
    · simp [map_rects_loop, survives, hk, ih]
    · have hs : survives chip tform b = true := by simp [survives, hk]
      simp only [map_rects_loop, ne_eq, hk, not_false_eq_true, if_true, ih,
        List.filter_cons, hs, List.map_cons, List.append_assoc, List.singleton_append]
      congr 2
      cases hc : chip.contains (tform b.rect) <;>
        cases hi : b.ignore <;>
        by_cases hh : (tform b.rect).height < threshold <;>
        simp [mapped_box, new_ignore, hc, hi, hh]

theorem flip_crop_rects_eq_map (window : rectangle) (l : List mmod_rect) :
    flip_crop_rects window l =
      l.map (fun rect => { rect with rect := flip_rect_left_right rect.rect window }) := by
  induction l with
  | nil => rfl
  | cons b rest ih => simp [flip_crop_rects, ih]

/-- The box list `apply_crop_plan` leaves in `crop_rects`. -/
theorem apply_crop_plan_rects {image σ : Type} (X : externals image σ)
    (self : random_cropper) (img : image) (rects : List mmod_rect)
    (crop_plan : chip_details) (should_flip_crop : Bool) (crop : image)
    (crop_rects : List mmod_rect) :
    (apply_crop_plan X self img rects crop_plan should_flip_crop crop crop_rects).2 =
      ((rects.filter (survives (get_rect X (X.extract_image_chip img crop_plan))
          (X.get_mapping_to_chip crop_plan))).map
        (mapped_box (get_rect X (X.extract_image_chip img crop_plan))
          (X.get_mapping_to_chip crop_plan)
          (min_object_height_absolute self crop_plan))).map
        (fun rect => if should_flip_crop then
          { rect with rect := (flip_rect_left_right rect.rect
              (get_rect X (X.flip_image_left_right (X.extract_image_chip img crop_plan)))) }
          else rect) := by
  cases should_flip_crop <;>
    simp [apply_crop_plan, map_rects_loop_eq, flip_crop_rects_eq_map]

/-- Once the plan is made the single image crop returns, with the outputs of
`apply_crop_plan`. -/
theorem operator_single_of_plan {image σ : Type} (fuel : Nat) (X : externals image σ)
    (self : random_cropper) (img : image) (rects : List mmod_rect) (crop : image)
    (crop_rects : List mmod_rect) (rnd rnd1 : σ) (crop_plan : chip_details)
    (should_flip_crop : Bool)
    (hplan : make_crop_plan fuel X self img rects rnd = (.ok (crop_plan, should_flip_crop), rnd1)) :
    operator_single fuel X self img rects crop crop_rects rnd =
      (.ok (),
        (apply_crop_plan X self img rects crop_plan should_flip_crop crop crop_rects).1,
        (apply_crop_plan X self img rects crop_plan should_flip_crop crop crop_rects).2,
        rnd1) := by
  simp [operator_single, hplan]

theorem forall₂_map_right_of {α β : Type} (R : α → β → Prop) (f : α → β) (l : List α)
    (h : ∀ a ∈ l, R a (f a)) : List.Forall₂ R l (l.map f) := by
  induction l with
  | nil => simp
  | cons a rest ih =>
    simp only [List.map_cons, List.forall₂_cons]
    exact ⟨h a (by simp), ih (fun x hx => h x (by simp [hx]))⟩

theorem contained_nonempty_survives (chip m : rectangle)
    (hc : chip.contains m = true) (hm : m.is_empty = false) :
    (chip.intersect m).area ≠ 0 := by
  obtain ⟨cl, ct, cr, cb⟩ := chip
  obtain ⟨ml, mt, mr, mb⟩ := m
  simp only [rectangle.is_empty, Bool.or_eq_false_iff, decide_eq_false_iff_not, not_lt,
    gt_iff_lt] at hm
  obtain ⟨hm1, hm2⟩ := hm
  simp only [rectangle.contains, rectangle.add, rectangle.is_empty, decide_eq_true_eq] at hc
  have hne : ¬ (mt > mb ∨ ml > mr) := by omega
  by_cases hce : ct > cb ∨ cl > cr
  · simp only [gt_iff_lt, Bool.or_eq_true, decide_eq_true_eq, hce, if_true,
      rectangle.mk.injEq] at hc
    omega
  · simp only [gt_iff_lt, Bool.or_eq_true, decide_eq_true_eq, hce, if_false, hne,
      rectangle.mk.injEq] at hc
    obtain ⟨h1, h2, h3, h4⟩ := hc
    have e1 : max cl ml = ml := by omega
    have e2 : max ct mt = mt := by omega
    have e3 : min cr mr = mr := by omega
    have e4 : min cb mb = mb := by omega
    simp only [rectangle.intersect, rectangle.area, rectangle.width, rectangle.height,
      rectangle.is_empty, e1, e2, e3, e4]
    have hf : (decide (mt > mb) || decide (ml > mr)) = false := by
      simp only [Bool.or_eq_false_iff, decide_eq_false_iff_not]; omega
    simp only [hf, Bool.false_eq_true, if_false]
    have w1 : 0 < (mr - ml + 1).toNat := by omega
    have w2 : 0 < (mb - mt + 1).toNat := by omega
    exact Nat.mul_ne_zero (by omega) (by omega)

/-! ## The claims -/

/-- C1: in the single image crop, every input box whose mapped rectangle has a
non-zero-area intersection with the chip gets the ignore flag
`old_ignore OR not_fully_contained OR too_small`: the flag is true when the chip does
not fully contain the mapped rectangle or the mapped height is below
`round(min_object_height * chip_rows)` (the product being the `double` product of
line 138), and a box that was ignored stays ignored, with or without the flip. -/
theorem single_crop_ignore_flag {image σ : Type} (fuel : Nat) (X : externals image σ)
    (self : random_cropper) (img : image) (rects : List mmod_rect) (crop : image)
    (crop_rects : List mmod_rect) (rnd rnd1 : σ) (crop_plan : chip_details)
    (should_flip_crop : Bool)
    (hplan : make_crop_plan fuel X self img rects rnd =
      (.ok (crop_plan, should_flip_crop), rnd1)) :
    let chip := get_rect X (X.extract_image_chip img crop_plan)
    let tform := X.get_mapping_to_chip crop_plan
    let threshold := (std_round
      (to_double (self.min_object_height * to_double (crop_plan.rows : ℚ)))).toNat
    ∃ crop1 out,
      operator_single fuel X self img rects crop crop_rects rnd = (.ok (), crop1, out, rnd1) ∧
      List.Forall₂
        (fun b o =>
          o.ignore = new_ignore b.ignore (!(chip.contains (tform b.rect)))
            (decide ((tform b.rect).height < threshold)) ∧
          ((chip.contains (tform b.rect) = false ∨ (tform b.rect).height < threshold) →
            o.ignore = true) ∧
          (b.ignore = true → o.ignore = true))
        (rects.filter (fun b => decide ((chip.intersect (tform b.rect)).area ≠ 0))) out := by
  intro chip tform threshold
  refine ⟨_, _, operator_single_of_plan fuel X self img rects crop crop_rects rnd rnd1
    crop_plan should_flip_crop hplan, ?_⟩
  rw [apply_crop_plan_rects, List.map_map]
  apply forall₂_map_right_of
  intro b _
  have hflag : ∀ m : mmod_rect, (if should_flip_crop = true then
      { m with rect := (flip_rect_left_right m.rect
        (get_rect X (X.flip_image_left_right (X.extract_image_chip img crop_plan)))) }
      else m).ignore = m.ignore := by
    intro m; cases should_flip_crop <;> rfl
  simp only [Function.comp_apply, hflag]
  refine ⟨rfl, ?_, ?_⟩
  · intro h
    show new_ignore b.ignore (!(chip.contains (tform b.rect)))
      (decide ((tform b.rect).height < threshold)) = true
    rcases h with h | h
    · simp [new_ignore, h]
    · simp [new_ignore, h]
  · intro h
    show new_ignore b.ignore (!(chip.contains (tform b.rect)))
      (decide ((tform b.rect).height < threshold)) = true
    simp [new_ignore, h]

/-- The theorem `single_crop_ignore_flag` at `sample_boxes` with `sample_draws`: the
plan is made, so the crop returns and its flags are as stated. -/
theorem single_crop_ignore_flag_witness :
    let chip := get_rect replay (replay.extract_image_chip sample_image
      ⟨⟨-6, -6, 16, 16⟩, 0, 300, 300⟩)
    let tform := replay.get_mapping_to_chip ⟨⟨-6, -6, 16, 16⟩, 0, 300, 300⟩
    let threshold := (std_round (to_double
      (random_cropper.default_constructed.min_object_height *
        to_double ((300 : Nat) : ℚ)))).toNat
    ∃ crop1 out,
      operator_single 5 replay random_cropper.default_constructed sample_image sample_boxes
        ⟨0, 0⟩ [] sample_draws = (.ok (), crop1, out, []) ∧
      List.Forall₂
        (fun b o =>
          o.ignore = new_ignore b.ignore (!(chip.contains (tform b.rect)))
            (decide ((tform b.rect).height < threshold)) ∧
          ((chip.contains (tform b.rect) = false ∨ (tform b.rect).height < threshold) →
            o.ignore = true) ∧
          (b.ignore = true → o.ignore = true))
        (sample_boxes.filter (fun b => decide ((chip.intersect (tform b.rect)).area ≠ 0)))
        out :=
  single_crop_ignore_flag 5 replay random_cropper.default_constructed sample_image
    sample_boxes ⟨0, 0⟩ [] sample_draws [] ⟨⟨-6, -6, 16, 16⟩, 0, 300, 300⟩ false
    (by with_unfolding_all rfl)

/-- C2: in the single image crop, a box whose mapped rectangle is fully contained in
the chip and at least `round(min_object_height * chip_rows)` high (the product being
the `double` product of line 138) keeps its ignore flag (false stays false); such a
box is in the output whenever its mapped rectangle is not empty. -/
theorem single_crop_ignore_unchanged {image σ : Type} (fuel : Nat) (X : externals image σ)
    (self : random_cropper) (img : image) (rects : List mmod_rect) (crop : image)
    (crop_rects : List mmod_rect) (rnd rnd1 : σ) (crop_plan : chip_details)
    (should_flip_crop : Bool)
    (hplan : make_crop_plan fuel X self img rects rnd =
      (.ok (crop_plan, should_flip_crop), rnd1)) :
    let chip := get_rect X (X.extract_image_chip img crop_plan)
    let tform := X.get_mapping_to_chip crop_plan
    let threshold := (std_round
      (to_double (self.min_object_height * to_double (crop_plan.rows : ℚ)))).toNat
    ∃ crop1 out,
      operator_single fuel X self img rects crop crop_rects rnd = (.ok (), crop1, out, rnd1) ∧
      List.Forall₂
        (fun b o =>
          chip.contains (tform b.rect) = true → threshold ≤ (tform b.rect).height →
            o.ignore = b.ignore)
        (rects.filter (fun b => decide ((chip.intersect (tform b.rect)).area ≠ 0))) out ∧
      ∀ b ∈ rects, chip.contains (tform b.rect) = true → (tform b.rect).is_empty = false →
        b ∈ rects.filter (fun b => decide ((chip.intersect (tform b.rect)).area ≠ 0)) := by
  intro chip tform threshold
  refine ⟨_, _, operator_single_of_plan fuel X self img rects crop crop_rects rnd rnd1
    crop_plan should_flip_crop hplan, ?_, ?_⟩
  · rw [apply_crop_plan_rects, List.map_map]
    apply forall₂_map_right_of
    intro b _ hc hh
    have hflag : ∀ m : mmod_rect, (if should_flip_crop = true then
        { m with rect := (flip_rect_left_right m.rect
          (get_rect X (X.flip_image_left_right (X.extract_image_chip img crop_plan)))) }
        else m).ignore = m.ignore := by
      intro m; cases should_flip_crop <;> rfl
    simp only [Function.comp_apply, hflag]
    show new_ignore b.ignore (!(chip.contains (tform b.rect)))
      (decide ((tform b.rect).height < threshold)) = b.ignore
    have hs : ¬ (tform b.rect).height < threshold := by omega
    simp [new_ignore, hc, hs]
  · intro b hb hc hne
    rw [List.mem_filter]
    exact ⟨hb, by simpa using contained_nonempty_survives chip (tform b.rect) hc hne⟩

/-- The theorem `single_crop_ignore_unchanged` at `sample_boxes` with the flip
taken. -/
theorem single_crop_ignore_unchanged_witness :
    let chip := get_rect replay (replay.extract_image_chip sample_image
      ⟨⟨-6, -6, 16, 16⟩, 0, 300, 300⟩)
    let tform := replay.get_mapping_to_chip ⟨⟨-6, -6, 16, 16⟩, 0, 300, 300⟩
    let threshold := (std_round (to_double
      (random_cropper.default_constructed.min_object_height *
        to_double ((300 : Nat) : ℚ)))).toNat
    ∃ crop1 out,
      operator_single 5 replay random_cropper.default_constructed sample_image sample_boxes
        ⟨0, 0⟩ [] sample_draws_flipped = (.ok (), crop1, out, []) ∧
      List.Forall₂
        (fun b o =>
          chip.contains (tform b.rect) = true → threshold ≤ (tform b.rect).height →
            o.ignore = b.ignore)
        (sample_boxes.filter (fun b => decide ((chip.intersect (tform b.rect)).area ≠ 0)))
        out ∧
      ∀ b ∈ sample_boxes, chip.contains (tform b.rect) = true →
        (tform b.rect).is_empty = false →
        b ∈ sample_boxes.filter
          (fun b => decide ((chip.intersect (tform b.rect)).area ≠ 0)) :=
  single_crop_ignore_unchanged 5 replay random_cropper.default_constructed sample_image
    sample_boxes ⟨0, 0⟩ [] sample_draws_flipped [] ⟨⟨-6, -6, 16, 16⟩, 0, 300, 300⟩ true
    (by with_unfolding_all rfl)

/-- C3: in the single image crop, an input box whose mapped rectangle has a
zero-area intersection with the chip rectangle is absent from `crop_rects`: the
output is the one the same plan gives for the input list without that box, so it has
fewer elements than the input. -/
theorem single_crop_drops_outside_box {image σ : Type} (fuel : Nat)
    (X : externals image σ) (self : random_cropper) (img : image)
    (pre post : List mmod_rect) (b : mmod_rect) (crop : image)
    (crop_rects : List mmod_rect) (rnd rnd1 : σ) (crop_plan : chip_details)
    (should_flip_crop : Bool)
    (hplan : make_crop_plan fuel X self img (pre ++ b :: post) rnd =
      (.ok (crop_plan, should_flip_crop), rnd1))
    (hzero : ((get_rect X (X.extract_image_chip img crop_plan)).intersect
      (X.get_mapping_to_chip crop_plan b.rect)).area = 0) :
    ∃ crop1 out,
      operator_single fuel X self img (pre ++ b :: post) crop crop_rects rnd =
        (.ok (), crop1, out, rnd1) ∧
      out = (apply_crop_plan X self img (pre ++ post) crop_plan should_flip_crop
        crop crop_rects).2 ∧
      out.length ≤ pre.length + post.length := by
  have hb : survives (get_rect X (X.extract_image_chip img crop_plan))
      (X.get_mapping_to_chip crop_plan) b = false := by
    simp [survives, hzero]
  have hsame : (apply_crop_plan X self img (pre ++ b :: post) crop_plan should_flip_crop
      crop crop_rects).2 =
      (apply_crop_plan X self img (pre ++ post) crop_plan should_flip_crop
        crop crop_rects).2 := by
    rw [apply_crop_plan_rects, apply_crop_plan_rects]
    simp [List.filter_append, List.filter_cons, hb]
  refine ⟨_, _, operator_single_of_plan fuel X self img (pre ++ b :: post) crop crop_rects
    rnd rnd1 crop_plan should_flip_crop hplan, hsame, ?_⟩
  rw [hsame, apply_crop_plan_rects]
  simp only [List.length_map]
  calc (List.filter (survives (get_rect X (X.extract_image_chip img crop_plan))
          (X.get_mapping_to_chip crop_plan)) (pre ++ post)).length
      ≤ (pre ++ post).length := List.length_filter_le _ _
    _ = pre.length + post.length := List.length_append _ _

/-- The example of the specification: a 100 x 100 image, one box at (0,0,10,10), a
crop inside (50,50,100,100): the box is dropped and the output list is empty. -/
theorem single_crop_drops_outside_box_witness :
    (∃ crop1 out,
      operator_single 5 replay random_cropper.default_constructed sample_image
        ([] ++ (⟨⟨0, 0, 10, 10⟩, 0, false, "a"⟩ : mmod_rect) :: []) ⟨0, 0⟩ []
        sample_draws_background = (.ok (), crop1, out, []) ∧
      out = (apply_crop_plan replay random_cropper.default_constructed sample_image
        ([] ++ []) ⟨⟨52, 52, 97, 97⟩, 0, 300, 300⟩ false ⟨0, 0⟩ []).2 ∧
      out.length ≤ ([] : List mmod_rect).length + ([] : List mmod_rect).length) ∧
    operator_single 5 replay random_cropper.default_constructed sample_image
      [⟨⟨0, 0, 10, 10⟩, 0, false, "a"⟩] ⟨0, 0⟩ [] sample_draws_background =
      (.ok (), ⟨300, 300⟩, [], []) :=
  ⟨single_crop_drops_outside_box 5 replay random_cropper.default_constructed sample_image
    [] [] ⟨⟨0, 0, 10, 10⟩, 0, false, "a"⟩ ⟨0, 0⟩ [] sample_draws_background []
    ⟨⟨52, 52, 97, 97⟩, 0, 300, 300⟩ false
    (by with_unfolding_all rfl) (by with_unfolding_all rfl),
   by with_unfolding_all rfl⟩

/-- C4: in the single image crop, whatever `crop` and `crop_rects` held before the
call, the output list pairs off, in order, with the input boxes whose mapped
rectangle has a non-zero-area intersection with the chip: each output box is one of
these boxes (same label and confidence) with its rectangle mapped, and reflected when
the crop is flipped.  These boxes are a sublist of the input, so the output is at
most as long as the input. -/
theorem single_crop_output_order {image σ : Type} (fuel : Nat) (X : externals image σ)
    (self : random_cropper) (img : image) (rects : List mmod_rect)
    (rnd rnd1 : σ) (crop_plan : chip_details) (should_flip_crop : Bool)
    (hplan : make_crop_plan fuel X self img rects rnd =
      (.ok (crop_plan, should_flip_crop), rnd1)) :
    let chip := get_rect X (X.extract_image_chip img crop_plan)
    let window := get_rect X (X.flip_image_left_right (X.extract_image_chip img crop_plan))
    let tform := X.get_mapping_to_chip crop_plan
    ∃ crop1 out,
      (∀ (crop : image) (crop_rects : List mmod_rect),
        operator_single fuel X self img rects crop crop_rects rnd =
          (.ok (), crop1, out, rnd1)) ∧
      List.Forall₂
        (fun b o =>
          o.label = b.label ∧ o.detection_confidence = b.detection_confidence ∧
          o.rect = if should_flip_crop then flip_rect_left_right (tform b.rect) window
            else tform b.rect)
        (rects.filter (fun b => decide ((chip.intersect (tform b.rect)).area ≠ 0))) out ∧
      (rects.filter (fun b => decide ((chip.intersect (tform b.rect)).area ≠ 0))).Sublist
        rects ∧
      out.length =
        (rects.filter (fun b => decide ((chip.intersect (tform b.rect)).area ≠ 0))).length ∧
      out.length ≤ rects.length := by
  intro chip window tform
  refine ⟨(apply_crop_plan X self img rects crop_plan should_flip_crop img []).1,
    (apply_crop_plan X self img rects crop_plan should_flip_crop img []).2, ?_, ?_, ?_, ?_, ?_⟩
  · intro crop crop_rects
    exact operator_single_of_plan fuel X self img rects crop crop_rects rnd rnd1
      crop_plan should_flip_crop hplan
  · rw [apply_crop_plan_rects, List.map_map]
    apply forall₂_map_right_of
    intro b _
    cases should_flip_crop <;> simp [mapped_box, window, tform]
  · exact List.filter_sublist _
  · rw [apply_crop_plan_rects]
    simp only [List.length_map]
    rfl
  · rw [apply_crop_plan_rects]
    simp only [List.length_map]
    exact List.length_filter_le _ _

/-- The theorem `single_crop_output_order` at `sample_boxes` with the flip taken. -/
theorem single_crop_output_order_witness :
    let chip := get_rect replay (replay.extract_image_chip sample_image
      ⟨⟨-6, -6, 16, 16⟩, 0, 300, 300⟩)
    let window := get_rect replay (replay.flip_image_left_right
      (replay.extract_image_chip sample_image ⟨⟨-6, -6, 16, 16⟩, 0, 300, 300⟩))
    let tform := replay.get_mapping_to_chip ⟨⟨-6, -6, 16, 16⟩, 0, 300, 300⟩
    ∃ crop1 out,
      (∀ (crop : sized_image) (crop_rects : List mmod_rect),
        operator_single 5 replay random_cropper.default_constructed sample_image
          sample_boxes crop crop_rects sample_draws_flipped = (.ok (), crop1, out, [])) ∧
      List.Forall₂
        (fun b o =>
          o.label = b.label ∧ o.detection_confidence = b.detection_confidence ∧
          o.rect = if true then flip_rect_left_right (tform b.rect) window
            else tform b.rect)
        (sample_boxes.filter (fun b => decide ((chip.intersect (tform b.rect)).area ≠ 0)))
        out ∧
      (sample_boxes.filter
        (fun b => decide ((chip.intersect (tform b.rect)).area ≠ 0))).Sublist sample_boxes ∧
      out.length = (sample_boxes.filter
        (fun b => decide ((chip.intersect (tform b.rect)).area ≠ 0))).length ∧
      out.length ≤ sample_boxes.length :=
  single_crop_output_order 5 replay random_cropper.default_constructed sample_image
    sample_boxes sample_draws_flipped [] ⟨⟨-6, -6, 16, 16⟩, 0, 300, 300⟩ true
    (by with_unfolding_all rfl)

/-- C5: each range-checked setter succeeds exactly on its range
(`0 ≤ v < 1` for `set_background_crops_fraction`, `0 < v < 1` for
`set_min_object_height` and `set_max_object_height`); outside it the call is a fatal
assertion that leaves the configuration as it was; inside it the matching getter then
returns `v` and no other field changes. -/
theorem range_checked_setters (self : random_cropper) (v : ℚ) :
    (((self.set_background_crops_fraction v).1 = .ok () ↔ (0 ≤ v ∧ v < 1)) ∧
      (¬ (0 ≤ v ∧ v < 1) →
        self.set_background_crops_fraction v = (.error .fatal_error, self)) ∧
      ((0 ≤ v ∧ v < 1) →
        (self.set_background_crops_fraction v).2.get_background_crops_fraction = v ∧
        self.set_background_crops_fraction v =
          (.ok (), { self with background_crops_fraction := v }))) ∧
    (((self.set_min_object_height v).1 = .ok () ↔ (0 < v ∧ v < 1)) ∧
      (¬ (0 < v ∧ v < 1) → self.set_min_object_height v = (.error .fatal_error, self)) ∧
      ((0 < v ∧ v < 1) →
        (self.set_min_object_height v).2.get_min_object_height = v ∧
        self.set_min_object_height v = (.ok (), { self with min_object_height := v }))) ∧
    (((self.set_max_object_height v).1 = .ok () ↔ (0 < v ∧ v < 1)) ∧
      (¬ (0 < v ∧ v < 1) → self.set_max_object_height v = (.error .fatal_error, self)) ∧
      ((0 < v ∧ v < 1) →
        (self.set_max_object_height v).2.get_max_object_height = v ∧
        self.set_max_object_height v = (.ok (), { self with max_object_height := v }))) := by
  refine ⟨⟨?_, ?_, ?_⟩, ⟨?_, ?_, ?_⟩, ⟨?_, ?_, ?_⟩⟩
  · by_cases h : 0 ≤ v ∧ v < 1 <;>
      simp [random_cropper.set_background_crops_fraction, h]
  · intro h; simp [random_cropper.set_background_crops_fraction, h]
  · intro h
    simp [random_cropper.set_background_crops_fraction,
      random_cropper.get_background_crops_fraction, h]
  · by_cases h : 0 < v ∧ v < 1 <;> simp [random_cropper.set_min_object_height, h]
  · intro h; simp [random_cropper.set_min_object_height, h]
  · intro h
    simp [random_cropper.set_min_object_height, random_cropper.get_min_object_height, h]
  · by_cases h : 0 < v ∧ v < 1 <;> simp [random_cropper.set_max_object_height, h]
  · intro h; simp [random_cropper.set_max_object_height, h]
  · intro h
    simp [random_cropper.set_max_object_height, random_cropper.get_max_object_height, h]

theorem invariant_default_constructed :
    random_cropper.default_constructed.invariant := by
  simp only [random_cropper.invariant, random_cropper.default_constructed,
    to_double_tenth, to_double_seven_tenths]
  norm_num

theorem invariant_run_setter (self next : random_cropper)
    (call : random_cropper.setter_call) (hinv : self.invariant)
    (hcall : self.run_setter call = (.ok (), next)) : next.invariant := by
  obtain ⟨h1, h2, h3, h4, h5, h6, h7⟩ := hinv
  cases call with
  | set_background_crops_fraction value =>
    simp only [random_cropper.run_setter, random_cropper.set_background_crops_fraction]
      at hcall
    split_ifs at hcall with hv
    · simp only [Prod.mk.injEq, true_and] at hcall
      subst hcall
      exact ⟨h1, h2, h3, h4, hv.1, hv.2, h7⟩
    · simp at hcall
  | set_chip_dims dims_ =>
    simp only [random_cropper.run_setter, random_cropper.set_chip_dims, Prod.mk.injEq,
      true_and] at hcall
    subst hcall
    exact ⟨h1, h2, h3, h4, h5, h6, h7⟩
  | set_chip_dims_rows_cols rows cols =>
    simp only [random_cropper.run_setter, random_cropper.set_chip_dims_rows_cols,
      random_cropper.set_chip_dims, Prod.mk.injEq, true_and] at hcall
    subst hcall
    exact ⟨h1, h2, h3, h4, h5, h6, h7⟩
  | set_randomly_flip value =>
    simp only [random_cropper.run_setter, random_cropper.set_randomly_flip, Prod.mk.injEq,
      true_and] at hcall
    subst hcall
    exact ⟨h1, h2, h3, h4, h5, h6, h7⟩
  | set_max_rotation_degrees value =>
    simp only [random_cropper.run_setter, random_cropper.set_max_rotation_degrees,
      Prod.mk.injEq, true_and] at hcall
    subst hcall
    exact ⟨h1, h2, h3, h4, h5, h6, abs_nonneg value⟩
  | set_min_object_height value =>
    simp only [random_cropper.run_setter, random_cropper.set_min_object_height] at hcall
    split_ifs at hcall with hv
    · simp only [Prod.mk.injEq, true_and] at hcall
      subst hcall
      exact ⟨hv.1, hv.2, h3, h4, h5, h6, h7⟩
    · simp at hcall
  | set_max_object_height value =>
    simp only [random_cropper.run_setter, random_cropper.set_max_object_height] at hcall
    split_ifs at hcall with hv
    · simp only [Prod.mk.injEq, true_and] at hcall
      subst hcall
      exact ⟨h1, h2, hv.1, hv.2, h5, h6, h7⟩
    · simp at hcall

/-- C6: the configuration invariant (`0 < min_object_height < 1`,
`0 < max_object_height < 1`, `0 ≤ background_crops_fraction < 1`,
`max_rotation_degrees ≥ 0`) holds for a default constructed cropper, is preserved by
every setter call that returns normally, and so holds in every reachable
configuration. -/
theorem invariant_of_reachable :
    random_cropper.default_constructed.invariant ∧
    (∀ (self next : random_cropper) (call : random_cropper.setter_call),
      self.invariant → self.run_setter call = (.ok (), next) → next.invariant) ∧
    (∀ self : random_cropper, self.reachable → self.invariant) := by
  refine ⟨invariant_default_constructed, invariant_run_setter, ?_⟩
  intro self hr
  induction hr with
  | start => exact invariant_default_constructed
  | step a next call _ hcall ih => exact invariant_run_setter a next call ih hcall

theorem square_size (left top : Int) (n : Nat) (hn : 1 ≤ n) :
    (⟨left, top, left + n - 1, top + n - 1⟩ : rectangle).width = n ∧
    (⟨left, top, left + n - 1, top + n - 1⟩ : rectangle).height = n := by
  simp only [rectangle.width, rectangle.height, rectangle.is_empty]
  have hf : (decide (top > top + (n : Int) - 1) || decide (left > left + (n : Int) - 1))
      = false := by
    simp only [Bool.or_eq_false_iff, decide_eq_false_iff_not]; omega
  simp only [hf, Bool.false_eq_true, if_false]
  omega

/-- C8, at a failing input: with the default configuration (`max_object_height` 0.7),
a box of height 10 and the scale draw `s = 11/16` of `[0.25, 0.7]`, line 192 truncates
`10/s = 14.54..` to the side 14, the crop square is (-2,-2,11,11), and the object is
10/14 of the height of the crop, which is more than `max_object_height`.  The run of
`make_crop_plan` shown draws `s = 0.6874` and plans the same square. -/
theorem object_height_exceeds_max_example :
    random_cropper.default_constructed.invariant ∧
    random_cropper.default_constructed.min_object_height ≤ 11 / 16 ∧
    (11 / 16 : ℚ) ≤ random_cropper.default_constructed.max_object_height ∧
    (⟨0, 0, 9, 9⟩ : rectangle).height = 10 ∧
    box_size 10 (11 / 16) = 14 ∧
    object_crop_rect ⟨0, 0, 9, 9⟩ 0 0 (11 / 16) = ⟨-2, -2, 11, 11⟩ ∧
    ¬ ((10 : ℚ) / ((box_size 10 (11 / 16) : Int) : ℚ) ≤
      random_cropper.default_constructed.max_object_height) ∧
    make_crop_plan 5 replay random_cropper.default_constructed sample_image
      [⟨⟨0, 0, 9, 9⟩, 0, false, "a"⟩] [500, 0, 500, 500, 972, 0, 500] =
      (.ok (⟨⟨-2, -2, 11, 11⟩, 0, 300, 300⟩, false), []) := by
  have hb : box_size 10 (11 / 16) = 14 := by with_unfolding_all rfl
  refine ⟨invariant_default_constructed, ?_, ?_, by decide, hb, ?_, ?_, ?_⟩
  · norm_num [random_cropper.default_constructed]
  · norm_num [random_cropper.default_constructed, to_double_seven_tenths]
  · with_unfolding_all rfl
  · rw [hb]
    norm_num [random_cropper.default_constructed, to_double_seven_tenths]
  · with_unfolding_all rfl

theorem get_double_in_range_symmetric {image σ : Type} (X : externals image σ)
    (hu : X.uniform_draws) (m : ℚ) (hm : 0 ≤ m) (rnd : σ) :
    -m ≤ (get_double_in_range X (-m) m rnd).1 ∧ (get_double_in_range X (-m) m rnd).1 ≤ m := by
  obtain ⟨h0, h1⟩ := hu rnd
  simp only [get_double_in_range]
  constructor
  · nlinarith
  · nlinarith

theorem replay_uniform_draws : replay.uniform_draws := by
  intro rnd
  simp only [replay]
  have h : (rnd.headD 0 % 1000 : Nat) < 1000 := Nat.mod_lt _ (by decide)
  have hq : (((rnd.headD 0 % 1000 : Nat) : ℚ)) < 1000 := by exact_mod_cast h
  have h0 : (0 : ℚ) ≤ ((rnd.headD 0 % 1000 : Nat) : ℚ) := Nat.cast_nonneg _
  constructor
  · positivity
  · rw [div_lt_one (by norm_num)]
    exact hq

/-- C9: after `set_max_rotation_degrees(value)`, for any `value` (a negative one is
stored as its absolute value) and any generator whose uniform draws lie in `[0,1)`,
every plan that `make_crop_plan` makes has a rotation that, in degrees, lies in
`[-max_rotation_degrees, +max_rotation_degrees]`, and the angle of the plan is that
number of degrees times `pi/180`. -/
theorem rotation_within_bounds {image σ : Type} (fuel : Nat) (X : externals image σ)
    (self0 : random_cropper) (value : ℚ) (img : image) (rects : List mmod_rect)
    (rnd rnd1 : σ) (crop_plan : chip_details) (should_flip_crop : Bool)
    (hu : X.uniform_draws)
    (hplan : make_crop_plan fuel X (self0.set_max_rotation_degrees value).2 img rects rnd =
      (.ok (crop_plan, should_flip_crop), rnd1)) :
    (self0.set_max_rotation_degrees value).2.get_max_rotation_degrees = |value| ∧
    ∃ (crop_rect : rectangle) (rnd2 : σ),
      choose_crop_rect fuel X (self0.set_max_rotation_degrees value).2 img rects rnd =
        (.ok crop_rect, rnd2) ∧
      -|value| ≤ (draw_rotation_degrees X (self0.set_max_rotation_degrees value).2
        (draw_should_flip_crop X (self0.set_max_rotation_degrees value).2 rnd2).2).1 ∧
      (draw_rotation_degrees X (self0.set_max_rotation_degrees value).2
        (draw_should_flip_crop X (self0.set_max_rotation_degrees value).2 rnd2).2).1
        ≤ |value| ∧
      crop_plan.angle =
        (draw_rotation_degrees X (self0.set_max_rotation_degrees value).2
          (draw_should_flip_crop X (self0.set_max_rotation_degrees value).2 rnd2).2).1 *
          (X.pi / 180) := by
  refine ⟨rfl, ?_⟩
  have hm : (self0.set_max_rotation_degrees value).2.max_rotation_degrees = |value| := rfl
  unfold make_crop_plan at hplan
  rcases hc : choose_crop_rect fuel X (self0.set_max_rotation_degrees value).2 img rects rnd
    with ⟨res, rnd2⟩
  rw [hc] at hplan
  cases res with
  | error e => simp at hplan
  | ok crop_rect =>
    simp only [Prod.mk.injEq, Except.ok.injEq] at hplan
    obtain ⟨⟨hp, _⟩, _⟩ := hplan
    refine ⟨crop_rect, rnd2, rfl, ?_, ?_, ?_⟩
    · have := (get_double_in_range_symmetric X hu |value| (abs_nonneg value)
        (draw_should_flip_crop X (self0.set_max_rotation_degrees value).2 rnd2).2).1
      simpa only [draw_rotation_degrees, hm] using this
    · have := (get_double_in_range_symmetric X hu |value| (abs_nonneg value)
        (draw_should_flip_crop X (self0.set_max_rotation_degrees value).2 rnd2).2).2
      simpa only [draw_rotation_degrees, hm] using this
    · rw [← hp]
      simp only [mul_div_assoc]

/-- The theorem `rotation_within_bounds` after `set_max_rotation_degrees(-45)`: the
plan made from the draws shown is rotated by -22.5 degrees. -/
theorem rotation_within_bounds_witness :
    (random_cropper.default_constructed.set_max_rotation_degrees (-45)).2.get_max_rotation_degrees
      = |(-45 : ℚ)| ∧
    ∃ (crop_rect : rectangle) (rnd2 : List Nat),
      choose_crop_rect 5 replay
        (random_cropper.default_constructed.set_max_rotation_degrees (-45)).2
        sample_image sample_boxes [500, 0, 500, 500, 500, 900, 250] = (.ok crop_rect, rnd2) ∧
      -|(-45 : ℚ)| ≤ (draw_rotation_degrees replay
        (random_cropper.default_constructed.set_max_rotation_degrees (-45)).2
        (draw_should_flip_crop replay
          (random_cropper.default_constructed.set_max_rotation_degrees (-45)).2 rnd2).2).1 ∧
      (draw_rotation_degrees replay
        (random_cropper.default_constructed.set_max_rotation_degrees (-45)).2
        (draw_should_flip_crop replay
          (random_cropper.default_constructed.set_max_rotation_degrees (-45)).2 rnd2).2).1
        ≤ |(-45 : ℚ)| ∧
      (⟨⟨-6, -6, 16, 16⟩, -355 / 904, 300, 300⟩ : chip_details).angle =
        (draw_rotation_degrees replay
          (random_cropper.default_constructed.set_max_rotation_degrees (-45)).2
          (draw_should_flip_crop replay
            (random_cropper.default_constructed.set_max_rotation_degrees (-45)).2 rnd2).2).1 *
          (replay.pi / 180) :=
  rotation_within_bounds 5 replay random_cropper.default_constructed (-45) sample_image
    sample_boxes [500, 0, 500, 500, 500, 900, 250] []
    ⟨⟨-6, -6, 16, 16⟩, -355 / 904, 300, 300⟩ true replay_uniform_draws
    (by with_unfolding_all rfl)

/-- C10: when `images.size() != rects.size()`, the pool crop and the batch crop both
stop with a fatal assertion before anything else happens: the generator has made no
draw, and `crop`, `crops` and `crop_rects` hold what they held before the call. -/
theorem pool_size_mismatch_is_fatal {image σ : Type} (fuel : Nat) (X : externals image σ)
    (self : random_cropper) (num_crops : Nat) (images : List image)
    (rects : List (List mmod_rect)) (crop : image) (crop_rects : List mmod_rect)
    (crops : List image) (all_crop_rects : List (List mmod_rect)) (rnd : σ)
    (hsize : images.length ≠ rects.length) :
    operator_pool fuel X self images rects crop crop_rects rnd =
      (.error .fatal_error, crop, crop_rects, rnd) ∧
    operator_batch fuel X self num_crops images rects crops all_crop_rects rnd =
      (.error .fatal_error, crops, all_crop_rects, rnd) := by
  constructor
  · simp [operator_pool, hsize]
  · simp [operator_batch, hsize]

/-- The theorem `pool_size_mismatch_is_fatal` for two images with one box list. -/
theorem pool_size_mismatch_is_fatal_witness :
    operator_pool 5 replay random_cropper.default_constructed [sample_image, sample_image]
      [sample_boxes] ⟨1, 1⟩ sample_boxes sample_draws =
      (.error .fatal_error, ⟨1, 1⟩, sample_boxes, sample_draws) ∧
    operator_batch 5 replay random_cropper.default_constructed 3
      [sample_image, sample_image] [sample_boxes] [⟨1, 1⟩] [sample_boxes] sample_draws =
      (.error .fatal_error, [⟨1, 1⟩], [sample_boxes], sample_draws) :=
  pool_size_mismatch_is_fatal 5 replay random_cropper.default_constructed 3
    [sample_image, sample_image] [sample_boxes] ⟨1, 1⟩ sample_boxes [⟨1, 1⟩]
    [sample_boxes] sample_draws (by decide)

/-- C11: for a pool with `images.size() == rects.size() = n > 0` and the 64 bit draw
`r`, the pool crop picks `idx = r mod n`, which is smaller than `n`, and is the single
image crop of `images[idx]` with `rects[idx]`, the box list at the same index, run on
the generator state left by that draw. -/
theorem pool_crop_delegates {image σ : Type} (fuel : Nat) (X : externals image σ)
    (self : random_cropper) (images : List image) (rects : List (List mmod_rect))
    (crop : image) (crop_rects : List mmod_rect) (rnd : σ)
    (hsize : images.length = rects.length) (hne : 0 < images.length) :
    (X.get_random_64bit_number rnd).1 % images.length < images.length ∧
    ∃ (img : image) (boxes : List mmod_rect),
      images[(X.get_random_64bit_number rnd).1 % images.length]? = some img ∧
      rects[(X.get_random_64bit_number rnd).1 % images.length]? = some boxes ∧
      operator_pool fuel X self images rects crop crop_rects rnd =
        operator_single fuel X self img boxes crop crop_rects
          (X.get_random_64bit_number rnd).2 := by
  have hidx : (X.get_random_64bit_number rnd).1 % images.length < images.length :=
    Nat.mod_lt _ hne
  have hidx2 : (X.get_random_64bit_number rnd).1 % images.length < rects.length := by
    rw [← hsize]; exact hidx
  refine ⟨hidx, images[(X.get_random_64bit_number rnd).1 % images.length],
    rects[(X.get_random_64bit_number rnd).1 % images.length],
    List.getElem?_eq_getElem hidx, List.getElem?_eq_getElem hidx2, ?_⟩
  have h0 : images.length ≠ 0 := by omega
  unfold operator_pool
  rw [if_pos hsize]
  simp only [h0, if_false]
  rw [List.getElem?_eq_getElem hidx, List.getElem?_eq_getElem hidx2]

/-- The theorem `pool_crop_delegates` for a pool of two images: the draw 3 picks the
pair at index 1. -/
theorem pool_crop_delegates_witness :
    (replay.get_random_64bit_number (3 :: sample_draws)).1 %
        [sample_image, ⟨50, 50⟩].length < [sample_image, ⟨50, 50⟩].length ∧
    ∃ (img : sized_image) (boxes : List mmod_rect),
      [sample_image, ⟨50, 50⟩][(replay.get_random_64bit_number (3 :: sample_draws)).1 %
        [sample_image, ⟨50, 50⟩].length]? = some img ∧
      [sample_boxes, []][(replay.get_random_64bit_number (3 :: sample_draws)).1 %
        [sample_image, ⟨50, 50⟩].length]? = some boxes ∧
      operator_pool 5 replay random_cropper.default_constructed [sample_image, ⟨50, 50⟩]
          [sample_boxes, []] ⟨0, 0⟩ [] (3 :: sample_draws) =
        operator_single 5 replay random_cropper.default_constructed img boxes ⟨0, 0⟩ []
          (replay.get_random_64bit_number (3 :: sample_draws)).2 :=
  pool_crop_delegates 5 replay random_cropper.default_constructed [sample_image, ⟨50, 50⟩]
    [sample_boxes, []] ⟨0, 0⟩ [] (3 :: sample_draws) (by decide) (by decide)

/-- What a successful `make_crop_plan` returns, read off lines 199-201. -/
theorem make_crop_plan_ok {image σ : Type} (fuel : Nat) (X : externals image σ)
    (self : random_cropper) (img : image) (rects : List mmod_rect) (rnd rnd1 : σ)
    (crop_plan : chip_details) (should_flip_crop : Bool)
    (hplan : make_crop_plan fuel X self img rects rnd =
      (.ok (crop_plan, should_flip_crop), rnd1)) :
    ∃ (crop_rect : rectangle) (rnd2 : σ),
      choose_crop_rect fuel X self img rects rnd = (.ok crop_rect, rnd2) ∧
      crop_plan = ⟨crop_rect,
        (draw_rotation_degrees X self (draw_should_flip_crop X self rnd2).2).1 * X.pi / 180,
        self.dims.rows, self.dims.cols⟩ ∧
      should_flip_crop = (draw_should_flip_crop X self rnd2).1 ∧
      rnd1 = (draw_rotation_degrees X self (draw_should_flip_crop X self rnd2).2).2 := by
  unfold make_crop_plan at hplan
  rcases hc : choose_crop_rect fuel X self img rects rnd with ⟨res, rnd2⟩
  rw [hc] at hplan
  cases res with
  | error e => simp at hplan
  | ok crop_rect =>
    simp only [Prod.mk.injEq, Except.ok.injEq] at hplan
    obtain ⟨⟨hp, hf⟩, hr⟩ := hplan
    exact ⟨crop_rect, rnd2, rfl, hp.symm, hf.symm, hr.symm⟩

theorem replay_chip_contract : replay.chip_contract :=
  ⟨fun _ _ => ⟨rfl, rfl⟩, fun _ => ⟨rfl, rfl⟩⟩

/-- C12: a plan made by `make_crop_plan` carries the configured `chip_dims`, the
ignore threshold of line 138 is computed from the configured rows, and, the chip
extraction producing an image of the size the plan asks for and the flip keeping that
size, the chip that the single image crop returns has `chip_dims.rows` rows and
`chip_dims.cols` columns, flipped or not. -/
theorem crop_has_configured_dims {image σ : Type} (fuel : Nat) (X : externals image σ)
    (self : random_cropper) (img : image) (rects : List mmod_rect) (crop : image)
    (crop_rects : List mmod_rect) (rnd rnd1 : σ) (crop_plan : chip_details)
    (should_flip_crop : Bool) (hchip : X.chip_contract)
    (hplan : make_crop_plan fuel X self img rects rnd =
      (.ok (crop_plan, should_flip_crop), rnd1)) :
    crop_plan.rows = self.get_chip_dims.rows ∧
    crop_plan.cols = self.get_chip_dims.cols ∧
    min_object_height_absolute self crop_plan =
      (std_round (to_double
        (self.min_object_height * to_double (self.get_chip_dims.rows : ℚ)))).toNat ∧
    ∃ crop1 out,
      operator_single fuel X self img rects crop crop_rects rnd = (.ok (), crop1, out, rnd1) ∧
      X.nr crop1 = self.get_chip_dims.rows ∧ X.nc crop1 = self.get_chip_dims.cols := by
  obtain ⟨crop_rect, rnd2, _, hp, _, _⟩ :=
    make_crop_plan_ok fuel X self img rects rnd rnd1 crop_plan should_flip_crop hplan
  have hrows : crop_plan.rows = self.dims.rows := by rw [hp]
  have hcols : crop_plan.cols = self.dims.cols := by rw [hp]
  refine ⟨hrows, hcols, ?_, _, _, operator_single_of_plan fuel X self img rects crop
    crop_rects rnd rnd1 crop_plan should_flip_crop hplan, ?_, ?_⟩
  · simp only [min_object_height_absolute, hrows, random_cropper.get_chip_dims]
  · cases should_flip_crop
    · simp only [apply_crop_plan, Bool.false_eq_true, if_false, random_cropper.get_chip_dims]
      rw [(hchip.1 img crop_plan).1, hrows]
    · simp only [apply_crop_plan, if_true, random_cropper.get_chip_dims]
      rw [(hchip.2 _).1, (hchip.1 img crop_plan).1, hrows]
  · cases should_flip_crop
    · simp only [apply_crop_plan, Bool.false_eq_true, if_false, random_cropper.get_chip_dims]
      rw [(hchip.1 img crop_plan).2, hcols]
    · simp only [apply_crop_plan, if_true, random_cropper.get_chip_dims]
      rw [(hchip.2 _).2, (hchip.1 img crop_plan).2, hcols]

/-- The theorem `crop_has_configured_dims` after `set_chip_dims(200, 150)`, on a flipped
crop of `sample_image`. -/
theorem crop_has_configured_dims_witness :
    (⟨⟨-6, -6, 16, 16⟩, 0, 200, 150⟩ : chip_details).rows =
      (random_cropper.default_constructed.set_chip_dims_rows_cols 200 150).2.get_chip_dims.rows ∧
    (⟨⟨-6, -6, 16, 16⟩, 0, 200, 150⟩ : chip_details).cols =
      (random_cropper.default_constructed.set_chip_dims_rows_cols 200 150).2.get_chip_dims.cols ∧
    min_object_height_absolute
        (random_cropper.default_constructed.set_chip_dims_rows_cols 200 150).2
        ⟨⟨-6, -6, 16, 16⟩, 0, 200, 150⟩ =
      (std_round (to_double
        ((random_cropper.default_constructed.set_chip_dims_rows_cols 200 150).2.min_object_height *
        to_double ((random_cropper.default_constructed.set_chip_dims_rows_cols 200
          150).2.get_chip_dims.rows : ℚ)))).toNat ∧
    ∃ crop1 out,
      operator_single 5 replay
        (random_cropper.default_constructed.set_chip_dims_rows_cols 200 150).2
        sample_image sample_boxes ⟨0, 0⟩ [] sample_draws_flipped =
        (.ok (), crop1, out, []) ∧
      replay.nr crop1 =
        (random_cropper.default_constructed.set_chip_dims_rows_cols 200 150).2.get_chip_dims.rows ∧
      replay.nc crop1 =
        (random_cropper.default_constructed.set_chip_dims_rows_cols 200 150).2.get_chip_dims.cols :=
  crop_has_configured_dims 5 replay
    (random_cropper.default_constructed.set_chip_dims_rows_cols 200 150).2
    sample_image sample_boxes ⟨0, 0⟩ [] sample_draws_flipped []
    ⟨⟨-6, -6, 16, 16⟩, 0, 200, 150⟩ true replay_chip_contract
    (by with_unfolding_all rfl)

/-! ## The left-right flip of rectangles -/

theorem nonempty_iff (a : rectangle) : a.is_empty = false ↔ a.t ≤ a.b ∧ a.l ≤ a.r := by
  simp only [rectangle.is_empty, Bool.or_eq_false_iff, decide_eq_false_iff_not, not_lt,
    gt_iff_lt]

theorem width_of_nonempty (a : rectangle) (h : a.is_empty = false) :
    (a.width : Int) = a.r - a.l + 1 := by
  have h2 := (nonempty_iff a).mp h
  simp only [rectangle.width, h, Bool.false_eq_true, if_false]
  omega

theorem flip_rect_left_right_of_nonempty (rect window : rectangle)
    (h : rect.is_empty = false) :
    flip_rect_left_right rect window =
      ⟨window.r - (rect.l - window.l) - (rect.r - rect.l), rect.t,
        window.r - (rect.l - window.l), rect.b⟩ := by
  have hw := width_of_nonempty rect h
  simp only [flip_rect_left_right, rectangle.mk.injEq, and_true, true_and]
  omega

theorem flip_rect_left_right_nonempty (rect window : rectangle)
    (h : rect.is_empty = false) :
    (flip_rect_left_right rect window).is_empty = false := by
  have h2 := (nonempty_iff rect).mp h
  rw [flip_rect_left_right_of_nonempty rect window h, nonempty_iff]
  constructor
  · exact h2.1
  · show window.r - (rect.l - window.l) - (rect.r - rect.l) ≤ window.r - (rect.l - window.l)
    omega

theorem flip_rect_left_right_twice (rect window : rectangle) (h : rect.is_empty = false) :
    flip_rect_left_right (flip_rect_left_right rect window) window = rect := by
  have h1 := flip_rect_left_right_nonempty rect window h
  rw [flip_rect_left_right_of_nonempty _ window h1,
    flip_rect_left_right_of_nonempty rect window h]
  obtain ⟨l, t, r, b⟩ := rect
  simp only [rectangle.mk.injEq, and_true, true_and]
  constructor <;> omega

theorem nonempty_of_survives (chip m : rectangle) (h : (chip.intersect m).area ≠ 0) :
    m.is_empty = false := by
  rw [nonempty_iff]
  by_contra hcon
  apply h
  have he : (chip.intersect m).is_empty = true := by
    simp only [rectangle.is_empty, rectangle.intersect, Bool.or_eq_true, decide_eq_true_eq]
    omega
  simp [rectangle.area, rectangle.width, he]

/-- Every box that the single image crop puts out has a non-empty rectangle. -/
theorem apply_crop_plan_nonempty {image σ : Type} (X : externals image σ)
    (self : random_cropper) (img : image) (rects : List mmod_rect)
    (crop_plan : chip_details) (should_flip_crop : Bool) (crop : image)
    (crop_rects : List mmod_rect) :
    ∀ b ∈ (apply_crop_plan X self img rects crop_plan should_flip_crop crop crop_rects).2,
      b.rect.is_empty = false := by
  intro b hb
  rw [apply_crop_plan_rects] at hb
  simp only [List.mem_map, List.mem_filter] at hb
  obtain ⟨m, ⟨a, ⟨_, hs⟩, rfl⟩, rfl⟩ := hb
  have hne : (X.get_mapping_to_chip crop_plan a.rect).is_empty = false :=
    nonempty_of_survives _ _ (by simpa [survives] using hs)
  cases should_flip_crop
  · simpa [mapped_box] using hne
  · simpa [mapped_box] using flip_rect_left_right_nonempty _ _ hne

/-- C13: the left-right reflection of a non-empty rectangle about a window is
self-inverse; every box rectangle in the output list of the single image crop is
non-empty, so for every chip rectangle, applying the flip step twice to the output
list gives the output list back. -/
theorem flip_twice_is_identity {image σ : Type} (fuel : Nat) (X : externals image σ)
    (self : random_cropper) (img : image) (rects : List mmod_rect) (crop : image)
    (crop_rects : List mmod_rect) (rnd rnd1 : σ) (crop_plan : chip_details)
    (should_flip_crop : Bool)
    (hplan : make_crop_plan fuel X self img rects rnd =
      (.ok (crop_plan, should_flip_crop), rnd1)) :
    (∀ rect window : rectangle, rect.is_empty = false →
      flip_rect_left_right (flip_rect_left_right rect window) window = rect) ∧
    ∃ crop1 out,
      operator_single fuel X self img rects crop crop_rects rnd = (.ok (), crop1, out, rnd1) ∧
      (∀ b ∈ out, b.rect.is_empty = false) ∧
      ∀ window : rectangle, flip_crop_rects window (flip_crop_rects window out) = out := by
  refine ⟨flip_rect_left_right_twice, _, _, operator_single_of_plan fuel X self img rects
    crop crop_rects rnd rnd1 crop_plan should_flip_crop hplan,
    apply_crop_plan_nonempty X self img rects crop_plan should_flip_crop crop crop_rects, ?_⟩
  intro window
  have hne := apply_crop_plan_nonempty X self img rects crop_plan should_flip_crop crop
    crop_rects
  generalize (apply_crop_plan X self img rects crop_plan should_flip_crop crop
    crop_rects).2 = out at hne
  induction out with
  | nil => rfl
  | cons b rest ih =>
    simp only [flip_crop_rects]
    rw [ih (fun x hx => hne x (by simp [hx])),
      flip_rect_left_right_twice b.rect window (hne b (by simp))]

/-- The theorem `flip_twice_is_identity` on the flipped crop of `sample_boxes`. -/
theorem flip_twice_is_identity_witness :
    (∀ rect window : rectangle, rect.is_empty = false →
      flip_rect_left_right (flip_rect_left_right rect window) window = rect) ∧
    ∃ crop1 out,
      operator_single 5 replay random_cropper.default_constructed sample_image sample_boxes
        ⟨0, 0⟩ [] sample_draws_flipped = (.ok (), crop1, out, []) ∧
      (∀ b ∈ out, b.rect.is_empty = false) ∧
      ∀ window : rectangle, flip_crop_rects window (flip_crop_rects window out) = out :=
  flip_twice_is_identity 5 replay random_cropper.default_constructed sample_image
    sample_boxes ⟨0, 0⟩ [] sample_draws_flipped [] ⟨⟨-6, -6, 16, 16⟩, 0, 300, 300⟩ true
    (by with_unfolding_all rfl)

/-! ## The planner -/

theorem has_non_ignored_box_iff (rects : List mmod_rect) :
    has_non_ignored_box rects = true ↔ ∃ b ∈ rects, b.ignore = false := by
  induction rects with
  | nil => simp [has_non_ignored_box]
  | cons b rest ih =>
    cases hb : b.ignore
    · simp [has_non_ignored_box, hb]
    · simp [has_non_ignored_box, hb, ih]

theorem has_non_ignored_box_eq_false_iff (rects : List mmod_rect) :
    has_non_ignored_box rects = false ↔ ∀ b ∈ rects, b.ignore = true := by
  rw [← Bool.not_eq_true, has_non_ignored_box_iff]
  simp

/-- C15: `make_crop_plan` chooses its crop rectangle by object centered sampling if
and only if the list has a box with `ignore = false` and the first uniform draw is at
least `background_crops_fraction`; otherwise by background sampling.  So without a
usable box it is background sampling for every draw and configuration, and with
`background_crops_fraction = 0`, a usable box and draws in `[0,1)` it is object
centered sampling. -/
theorem branch_choice {image σ : Type} (fuel : Nat) (X : externals image σ)
    (self : random_cropper) (img : image) (rects : List mmod_rect) (rnd : σ) :
    (object_branch_taken X self rects rnd = true ↔
      (∃ b ∈ rects, b.ignore = false) ∧
        (X.get_random_double rnd).1 ≥ self.background_crops_fraction) ∧
    (object_branch_taken X self rects rnd = true →
      choose_crop_rect fuel X self img rects rnd =
        object_centered_crop fuel X self rects (X.get_random_double rnd).2) ∧
    (object_branch_taken X self rects rnd = false →
      choose_crop_rect fuel X self img rects rnd =
        make_random_cropping_rect_resnet X img
          (if has_non_ignored_box rects then (X.get_random_double rnd).2 else rnd)) ∧
    ((∀ b ∈ rects, b.ignore = true) →
      object_branch_taken X self rects rnd = false ∧
      choose_crop_rect fuel X self img rects rnd =
        make_random_cropping_rect_resnet X img rnd) ∧
    (X.uniform_draws → self.background_crops_fraction = 0 →
      (∃ b ∈ rects, b.ignore = false) →
      object_branch_taken X self rects rnd = true ∧
      choose_crop_rect fuel X self img rects rnd =
        object_centered_crop fuel X self rects (X.get_random_double rnd).2) := by
  refine ⟨?_, ?_, ?_, ?_, ?_⟩
  · simp only [object_branch_taken, Bool.and_eq_true, decide_eq_true_eq,
      has_non_ignored_box_iff]
  · intro h
    simp only [object_branch_taken, Bool.and_eq_true, decide_eq_true_eq] at h
    simp only [choose_crop_rect, h.1, if_true, h.2]
  · intro h
    cases hb : has_non_ignored_box rects
    · simp [choose_crop_rect, hb]
    · simp only [object_branch_taken, hb, Bool.true_and, decide_eq_false_iff_not] at h
      simp only [choose_crop_rect, hb, if_true, h, if_false]
  · intro h
    have hb := (has_non_ignored_box_eq_false_iff rects).mpr h
    constructor
    · simp [object_branch_taken, hb]
    · simp [choose_crop_rect, hb]
  · intro hu h0 hex
    have hb := (has_non_ignored_box_iff rects).mpr hex
    have hge : (X.get_random_double rnd).1 ≥ self.background_crops_fraction := by
      rw [h0]; exact (hu rnd).1
    constructor
    · simp [object_branch_taken, hb, hge]
    · simp only [choose_crop_rect, hb, if_true, hge]

theorem randomly_pick_rect_loop_ne_fatal {image σ : Type} (X : externals image σ)
    (rects : List mmod_rect) (fuel idx : Nat) (rnd : σ) :
    (randomly_pick_rect_loop X rects fuel idx rnd).1 ≠ .error .fatal_error := by
  induction fuel generalizing idx rnd with
  | zero =>
    unfold randomly_pick_rect_loop
    cases hb : rects[idx]? with
    | none => simp
    | some b => cases hi : b.ignore <;> simp [hi]
  | succ fuel ih =>
    unfold randomly_pick_rect_loop
    cases hb : rects[idx]? with
    | none => simp
    | some b =>
      cases hi : b.ignore
      · simp [hi]
      · simpa [hi] using ih _ _

theorem randomly_pick_rect_loop_finds {image σ : Type} (X : externals image σ)
    (rects : List mmod_rect) (k : Nat) :
    ∀ (fuel : Nat) (rnd : σ), k ≤ fuel →
      (∀ j < k, ∀ b, rects[nth_64bit_draw X j rnd % rects.length]? = some b →
        b.ignore = true) →
      (∃ b, rects[nth_64bit_draw X k rnd % rects.length]? = some b ∧ b.ignore = false) →
      randomly_pick_rect_loop X rects fuel (nth_64bit_draw X 0 rnd % rects.length)
          (after_64bit_draws X 1 rnd) =
        (.ok (nth_64bit_draw X k rnd % rects.length), after_64bit_draws X (k + 1) rnd) := by
  induction k with
  | zero =>
    intro fuel rnd _ _ hk
    obtain ⟨b, hb, hi⟩ := hk
    cases fuel with
    | zero => unfold randomly_pick_rect_loop; rw [hb]; simp [hi]
    | succ f => unfold randomly_pick_rect_loop; rw [hb]; simp [hi]
  | succ k ih =>
    intro fuel rnd hfuel hbefore hk
    obtain ⟨bk, hbk, _⟩ := hk
    have hlen : 0 < rects.length := by
      rcases Nat.eq_zero_or_pos rects.length with h0 | h0
      · have : rects = [] := List.length_eq_zero.mp h0
        rw [this] at hbk
        simp at hbk
      · exact h0
    have hidx : nth_64bit_draw X 0 rnd % rects.length < rects.length := Nat.mod_lt _ hlen
    have hb0 : rects[nth_64bit_draw X 0 rnd % rects.length]? =
        some rects[nth_64bit_draw X 0 rnd % rects.length] := List.getElem?_eq_getElem hidx
    have hi0 := hbefore 0 (Nat.succ_pos k) _ hb0
    cases fuel with
    | zero => omega
    | succ f =>
      unfold randomly_pick_rect_loop
      rw [hb0]
      simp only [hi0, if_true]
      exact ih f (X.get_random_64bit_number rnd).2 (by omega)
        (fun j hj b hb => hbefore (j + 1) (by omega) b hb) ⟨bk, hbk, by assumption⟩

theorem make_random_cropping_rect_resnet_ne_fatal {image σ : Type} (X : externals image σ)
    (img : image) (rnd : σ) :
    (make_random_cropping_rect_resnet X img rnd).1 ≠ .error .fatal_error := by
  unfold make_random_cropping_rect_resnet
  simp only
  split_ifs <;> simp

theorem randomly_pick_rect_ne_fatal {image σ : Type} (fuel : Nat) (X : externals image σ)
    (rects : List mmod_rect) (rnd : σ) (h : has_non_ignored_box rects = true) :
    (randomly_pick_rect fuel X rects rnd).1 ≠ .error .fatal_error := by
  simp only [randomly_pick_rect, h, if_true]
  exact randomly_pick_rect_loop_ne_fatal X rects fuel _ _

theorem object_centered_crop_ne_fatal {image σ : Type} (fuel : Nat) (X : externals image σ)
    (self : random_cropper) (rects : List mmod_rect) (rnd : σ)
    (h : has_non_ignored_box rects = true) :
    (object_centered_crop fuel X self rects rnd).1 ≠ .error .fatal_error := by
  have hp := randomly_pick_rect_ne_fatal fuel X rects rnd h
  unfold object_centered_crop
  rcases hr : randomly_pick_rect fuel X rects rnd with ⟨res, rnd1⟩
  rw [hr] at hp
  cases res with
  | error e => simpa using hp
  | ok idx =>
    simp only
    cases rects[idx]? with
    | none => simp
    | some picked =>
      simp only
      split_ifs <;> simp

theorem choose_crop_rect_ne_fatal {image σ : Type} (fuel : Nat) (X : externals image σ)
    (self : random_cropper) (img : image) (rects : List mmod_rect) (rnd : σ) :
    (choose_crop_rect fuel X self img rects rnd).1 ≠ .error .fatal_error := by
  unfold choose_crop_rect
  cases hb : has_non_ignored_box rects
  · simpa using make_random_cropping_rect_resnet_ne_fatal X img rnd
  · simp only [if_true]
    split_ifs
    · exact object_centered_crop_ne_fatal fuel X self rects _ hb
    · exact make_random_cropping_rect_resnet_ne_fatal X img _

theorem make_crop_plan_ne_fatal {image σ : Type} (fuel : Nat) (X : externals image σ)
    (self : random_cropper) (img : image) (rects : List mmod_rect) (rnd : σ) :
    (make_crop_plan fuel X self img rects rnd).1 ≠ .error .fatal_error := by
  have hc := choose_crop_rect_ne_fatal fuel X self img rects rnd
  unfold make_crop_plan
  rcases hr : choose_crop_rect fuel X self img rects rnd with ⟨res, rnd1⟩
  rw [hr] at hc
  cases res with
  | error e => simpa using hc
  | ok crop_rect => simp

/-- C16: `randomly_pick_rect` stops with the fatal assertion exactly when the list has
no box with `ignore = false`.  When draw number `k` of the stream is the first whose
residue modulo `rects.size()` indexes a non-ignored box, then with fuel for `k`
repetitions of the loop it returns that residue, an index below `rects.size()` of a
non-ignored box, leaving the generator after `k + 1` draws.  The assertion cannot fire
in a call from `make_crop_plan`. -/
theorem randomly_pick_rect_spec {image σ : Type} (fuel : Nat) (X : externals image σ)
    (self : random_cropper) (img : image) (rects : List mmod_rect) (rnd : σ) :
    ((randomly_pick_rect fuel X rects rnd).1 = .error .fatal_error ↔
      ∀ b ∈ rects, b.ignore = true) ∧
    ((∀ b ∈ rects, b.ignore = true) →
      randomly_pick_rect fuel X rects rnd = (.error .fatal_error, rnd)) ∧
    (∀ k : Nat, k ≤ fuel →
      (∀ j < k, ∀ b, rects[nth_64bit_draw X j rnd % rects.length]? = some b →
        b.ignore = true) →
      (∃ b, rects[nth_64bit_draw X k rnd % rects.length]? = some b ∧ b.ignore = false) →
      randomly_pick_rect fuel X rects rnd =
        (.ok (nth_64bit_draw X k rnd % rects.length), after_64bit_draws X (k + 1) rnd) ∧
      nth_64bit_draw X k rnd % rects.length < rects.length) ∧
    (make_crop_plan fuel X self img rects rnd).1 ≠ .error .fatal_error := by
  refine ⟨?_, ?_, ?_, make_crop_plan_ne_fatal fuel X self img rects rnd⟩
  · rw [← has_non_ignored_box_eq_false_iff]
    cases hb : has_non_ignored_box rects
    · simp [randomly_pick_rect, hb]
    · have := randomly_pick_rect_ne_fatal fuel X rects rnd hb
      simp [this]
  · intro h
    have hb := (has_non_ignored_box_eq_false_iff rects).mpr h
    simp [randomly_pick_rect, hb]
  · intro k hk hbefore hfound
    obtain ⟨bk, hbk, hik⟩ := hfound
    have hmem : bk ∈ rects := List.getElem?_mem hbk
    have hb : has_non_ignored_box rects = true :=
      (has_non_ignored_box_iff rects).mpr ⟨bk, hmem, hik⟩
    have hlen : 0 < rects.length := List.length_pos_of_mem hmem
    refine ⟨?_, Nat.mod_lt _ hlen⟩
    simp only [randomly_pick_rect, hb, if_true]
    exact randomly_pick_rect_loop_finds X rects k fuel rnd hk hbefore ⟨bk, hbk, hik⟩

/-- A run of `randomly_pick_rect`: the list holds an ignored box and a usable one, the
draws 4 and 6 hit the ignored box, the draw 7 the usable one at index 1. -/
theorem randomly_pick_rect_example :
    randomly_pick_rect 2 replay
      [⟨⟨2, 2, 9, 9⟩, 0, true, "d"⟩, ⟨⟨0, 0, 10, 10⟩, 0, false, "a"⟩] [4, 6, 7, 9] =
      (.ok 1, [9]) ∧
    randomly_pick_rect 1 replay
      [⟨⟨2, 2, 9, 9⟩, 0, true, "d"⟩, ⟨⟨0, 0, 10, 10⟩, 0, false, "a"⟩] [4, 6, 7, 9] =
      (.error .out_of_fuel, [7, 9]) ∧
    randomly_pick_rect 2 replay [⟨⟨2, 2, 9, 9⟩, 0, true, "d"⟩] [4, 6, 7, 9] =
      (.error .fatal_error, [4, 6, 7, 9]) := by
  refine ⟨?_, ?_, ?_⟩ <;> with_unfolding_all rfl

/-! ## Object centered sampling -/

theorem rectangle_of_size_moved (side x y : Nat) :
    (move_rect (rectangle_of_size side side) ((x : Int), (y : Int))).width = side ∧
    (move_rect (rectangle_of_size side side) ((x : Int), (y : Int))).height = side ∧
    (move_rect (rectangle_of_size side side) ((x : Int), (y : Int))).l = x ∧
    (move_rect (rectangle_of_size side side) ((x : Int), (y : Int))).t = y ∧
    (move_rect (rectangle_of_size side side) ((x : Int), (y : Int))).r =
      (x : Int) + side - 1 ∧
    (move_rect (rectangle_of_size side side) ((x : Int), (y : Int))).b =
      (y : Int) + side - 1 := by
  have hrect : move_rect (rectangle_of_size side side) ((x : Int), (y : Int)) =
      ⟨(x : Int), (y : Int), (x : Int) + side - 1, (y : Int) + side - 1⟩ := by
    simp only [move_rect, rectangle_of_size, rectangle.mk.injEq]
    refine ⟨?_, ?_, ?_, ?_⟩ <;> omega
  rw [hrect]
  refine ⟨?_, ?_, rfl, rfl, rfl, rfl⟩
  · rcases Nat.eq_zero_or_pos side with h0 | hpos
    · subst h0
      have he : (⟨(x : Int), (y : Int), (x : Int) + (0 : Nat) - 1,
          (y : Int) + (0 : Nat) - 1⟩ : rectangle).is_empty = true := by
        simp only [rectangle.is_empty, Bool.or_eq_true, decide_eq_true_eq]
        omega
      simp [rectangle.width, he]
    · exact (square_size x y side hpos).1
  · rcases Nat.eq_zero_or_pos side with h0 | hpos
    · subst h0
      have he : (⟨(x : Int), (y : Int), (x : Int) + (0 : Nat) - 1,
          (y : Int) + (0 : Nat) - 1⟩ : rectangle).is_empty = true := by
        simp only [rectangle.is_empty, Bool.or_eq_true, decide_eq_true_eq]
        omega
      simp [rectangle.height, he]
    · exact (square_size x y side hpos).2

theorem rectangle_of_size_width (side : Nat) :
    (rectangle_of_size side side).width = side ∧
    (rectangle_of_size side side).height = side := by
  have h := rectangle_of_size_moved side 0 0
  have hm : move_rect (rectangle_of_size side side) (((0 : Nat) : Int), ((0 : Nat) : Int)) =
      rectangle_of_size side side := by
    simp [move_rect]
  rw [hm] at h
  exact ⟨h.1, h.2.1⟩

theorem unsigned_difference (a b : Nat) (hb : b ≤ a) (ha : a < 2 ^ 63) :
    ((((a : Int) - (b : Int)) % 2 ^ 64).toNat) = a - b := by
  have h264 : (2 : Int) ^ 64 = 18446744073709551616 := by norm_num
  have h263 : (2 : Nat) ^ 63 = 9223372036854775808 := by norm_num
  rw [h264]
  rw [h263] at ha
  omega

theorem resnet_mins_value : resnet_mins = 8406719292415327 / 18014398509481984 := by
  with_unfolding_all rfl

theorem resnet_diff_exact :
    to_double (resnet_maxs - resnet_mins) = resnet_maxs - resnet_mins := by
  with_unfolding_all rfl

theorem is_double_resnet_mins : is_double resnet_mins :=
  ⟨8406719292415327, -54, by norm_num, by norm_num, by rw [resnet_mins_value]; norm_num⟩

theorem is_double_resnet_maxs : is_double resnet_maxs :=
  ⟨7, -3, by norm_num, by norm_num, by norm_num [resnet_maxs]⟩

theorem is_double_resnet_diff : is_double (resnet_maxs - resnet_mins) :=
  ⟨7355879403381409, -54, by norm_num, by norm_num,
    by rw [resnet_mins_value]; norm_num [resnet_maxs]⟩

/-- The scale of line 234 lies in `[mins, maxs]` for a draw in `[0,1]`. -/
theorem resnet_scale_range (u : ℚ) (hu0 : 0 ≤ u) (hu1 : u ≤ 1) :
    resnet_mins ≤ resnet_scale u ∧ resnet_scale u ≤ resnet_maxs := by
  have hd0 : (0 : ℚ) ≤ resnet_maxs - resnet_mins := by
    rw [resnet_mins_value]; norm_num [resnet_maxs]
  have hm0 : (0 : ℚ) ≤ resnet_mins := by rw [resnet_mins_value]; norm_num
  have hx0 : 0 ≤ u * (resnet_maxs - resnet_mins) := mul_nonneg hu0 hd0
  have hp0 : 0 ≤ to_double (u * (resnet_maxs - resnet_mins)) := to_double_nonneg _ hx0
  have hp1 : to_double (u * (resnet_maxs - resnet_mins)) ≤ resnet_maxs - resnet_mins :=
    to_double_le_of_double _ _ hx0 is_double_resnet_diff (by nlinarith)
  unfold resnet_scale
  rw [resnet_diff_exact]
  constructor
  · exact to_double_ge_of_double _ _ (by linarith) is_double_resnet_mins (by linarith)
  · exact to_double_le_of_double _ _ (by linarith) is_double_resnet_maxs (by linarith)

theorem to_double_le_crude (x : ℚ) (hx : 0 ≤ x) :
    to_double x ≤ x * (1001 / 1000) + 1 / 1000 := by
  have h := to_double_near x
  rw [abs_of_nonneg hx] at h
  have h1 : (2 : ℚ) ^ (-53 : Int) ≤ 1 / 1000 := by norm_num
  have h2 : (2 : ℚ) ^ (-1075 : Int) ≤ 1 / 1000 := by
    have : (2 : ℚ) ^ (-1075 : Int) ≤ (2 : ℚ) ^ (-53 : Int) :=
      zpow_le_zpow_right₀ (by norm_num) (by norm_num)
    linarith
  have h3 := (abs_le.mp h).2
  have h4 : (2 : ℚ) ^ (-53 : Int) * x ≤ 1 / 1000 * x :=
    mul_le_mul_of_nonneg_right h1 hx
  generalize (2 : ℚ) ^ (-53 : Int) * x = A at h3 h4
  generalize (2 : ℚ) ^ (-1075 : Int) = B at h3 h2
  linarith

/-- Lines 235-236 for any scale in `[0, 0.875]` and a dimension `n ≥ 1`: the `double`
product, truncated, is below `n`. -/
theorem scaled_side_lt (scale : ℚ) (n : Nat) (h0 : 0 ≤ scale) (h1 : scale ≤ 7 / 8)
    (hn : 1 ≤ n) : (trunc_to_long (to_double (scale * to_double (n : ℚ)))).toNat < n := by
  have hnq : (1 : ℚ) ≤ (n : ℚ) := by exact_mod_cast hn
  have hA0 : 0 ≤ to_double (n : ℚ) := to_double_nonneg _ (by linarith)
  have hA1 := to_double_le_crude (n : ℚ) (by linarith)
  have hy0 : 0 ≤ scale * to_double (n : ℚ) := mul_nonneg h0 hA0
  have hy1 : scale * to_double (n : ℚ) ≤ 7 / 8 * to_double (n : ℚ) :=
    mul_le_mul_of_nonneg_right h1 hA0
  have hz0 := to_double_nonneg _ hy0
  have hz1 := to_double_le_crude _ hy0
  have hsize1 : to_double (scale * to_double (n : ℚ)) < (n : ℚ) := by linarith
  have hfl : ⌊to_double (scale * to_double (n : ℚ))⌋ < (n : Int) := by
    rw [Int.floor_lt]
    exact_mod_cast hsize1
  have hfl0 := Int.floor_nonneg.mpr hz0
  simp only [trunc_to_long, hz0, if_true]
  omega

/-- The scale of line 234 lies in `[mins, maxs]` for a draw in `[0,1]`, and the side
of line 235-236 is below the smaller dimension of a non-degenerate image. -/
theorem resnet_side_lt {image σ : Type} (X : externals image σ) (img : image) (u : ℚ)
    (hu0 : 0 ≤ u) (hu1 : u ≤ 1) (hr : 1 ≤ X.nr img) (hc : 1 ≤ X.nc img) :
    resnet_mins ≤ resnet_scale u ∧ resnet_scale u ≤ resnet_maxs ∧
    resnet_side X img u < min (X.nr img) (X.nc img) := by
  obtain ⟨hs1, hs2⟩ := resnet_scale_range u hu0 hu1
  refine ⟨hs1, hs2, ?_⟩
  have hm : 1 ≤ min (X.nr img) (X.nc img) := le_min hr hc
  have hmq : (1 : ℚ) ≤ ((min (X.nr img) (X.nc img) : Nat) : ℚ) := by exact_mod_cast hm
  have hm0 : (0 : ℚ) ≤ resnet_mins := by rw [resnet_mins_value]; norm_num
  have hmaxs : resnet_maxs = 7 / 8 := by norm_num [resnet_maxs]
  have hsc0 : 0 ≤ resnet_scale u := le_trans hm0 hs1
  have hA0 : 0 ≤ to_double ((min (X.nr img) (X.nc img) : Nat) : ℚ) :=
    to_double_nonneg _ (by linarith)
  have hA1 := to_double_le_crude ((min (X.nr img) (X.nc img) : Nat) : ℚ) (by linarith)
  have hy0 : 0 ≤ resnet_scale u * to_double ((min (X.nr img) (X.nc img) : Nat) : ℚ) :=
    mul_nonneg hsc0 hA0
  have hy1 : resnet_scale u * to_double ((min (X.nr img) (X.nc img) : Nat) : ℚ) ≤
      7 / 8 * to_double ((min (X.nr img) (X.nc img) : Nat) : ℚ) :=
    mul_le_mul_of_nonneg_right (by linarith) hA0
  have hz0 := to_double_nonneg _ hy0
  have hz1 := to_double_le_crude _ hy0
  have hsize1 : to_double
      (resnet_scale u * to_double ((min (X.nr img) (X.nc img) : Nat) : ℚ)) <
      ((min (X.nr img) (X.nc img) : Nat) : ℚ) := by
    linarith
  have hfl : ⌊to_double
      (resnet_scale u * to_double ((min (X.nr img) (X.nc img) : Nat) : ℚ))⌋ <
      ((min (X.nr img) (X.nc img) : Nat) : Int) := by
    rw [Int.floor_lt]
    exact_mod_cast hsize1
  have hfl0 := Int.floor_nonneg.mpr hz0
  simp only [resnet_side, trunc_to_long, hz0, if_true]
  omega

/-- The result of background sampling when the sampled side is below both dimensions
of the image. -/
theorem make_random_cropping_rect_resnet_ok {image σ : Type} (X : externals image σ)
    (img : image) (rnd : σ) (hr63 : X.nr img < 2 ^ 63) (hc63 : X.nc img < 2 ^ 63)
    (hsc : resnet_side X img (X.get_random_double rnd).1 < X.nc img)
    (hsr : resnet_side X img (X.get_random_double rnd).1 < X.nr img) :
    make_random_cropping_rect_resnet X img rnd =
      (.ok (move_rect
        (rectangle_of_size (resnet_side X img (X.get_random_double rnd).1)
          (resnet_side X img (X.get_random_double rnd).1))
        ((((X.get_random_32bit_number (X.get_random_double rnd).2).1 %
            (X.nc img - resnet_side X img (X.get_random_double rnd).1) : Nat) : Int),
         (((X.get_random_32bit_number
            (X.get_random_32bit_number (X.get_random_double rnd).2).2).1 %
            (X.nr img - resnet_side X img (X.get_random_double rnd).1) : Nat) : Int))),
        (X.get_random_32bit_number
          (X.get_random_32bit_number (X.get_random_double rnd).2).2).2) := by
  have hw := rectangle_of_size_width (resnet_side X img (X.get_random_double rnd).1)
  have hx := unsigned_difference (X.nc img) (resnet_side X img (X.get_random_double rnd).1)
    (le_of_lt hsc) hc63
  have hy := unsigned_difference (X.nr img) (resnet_side X img (X.get_random_double rnd).1)
    (le_of_lt hsr) hr63
  unfold make_random_cropping_rect_resnet
  simp only [hw.1, hw.2, hx, hy]
  have hnx : ¬ (X.nc img - resnet_side X img (X.get_random_double rnd).1 = 0 ∨
      X.nr img - resnet_side X img (X.get_random_double rnd).1 = 0) := by omega
  rw [if_neg hnx]

/-- C18: in background sampling, when the sampled side is below the width and the
height of the image (dimensions that fit a `long`) and the uniform draw lies in
`[0,1)`, the function returns a square whose side is `scale * min(height, width)`
(the `double` product of line 235) truncated to an integer, with `scale` in
`[0.466666666, 0.875]` (the `double` constants of line 233); its top left corner lies
in `[0, image_dim - side)` on each axis and the square lies inside the image. -/
theorem background_square_fits {image σ : Type} (X : externals image σ) (img : image)
    (rnd : σ) (hu : X.uniform_draws) (hr63 : X.nr img < 2 ^ 63) (hc63 : X.nc img < 2 ^ 63)
    (hsc : resnet_side X img (X.get_random_double rnd).1 < X.nc img)
    (hsr : resnet_side X img (X.get_random_double rnd).1 < X.nr img) :
    let scale := resnet_scale (X.get_random_double rnd).1
    let side := resnet_side X img (X.get_random_double rnd).1
    resnet_mins ≤ scale ∧ scale ≤ resnet_maxs ∧
    (side : Int) =
      ⌊to_double (scale * to_double ((min (X.nr img) (X.nc img) : Nat) : ℚ))⌋ ∧
    ∃ (rect : rectangle) (rnd1 : σ),
      make_random_cropping_rect_resnet X img rnd = (.ok rect, rnd1) ∧
      rect.width = side ∧ rect.height = side ∧
      0 ≤ rect.l ∧ rect.l < (X.nc img : Int) - side ∧
      0 ≤ rect.t ∧ rect.t < (X.nr img : Int) - side ∧
      rect.r ≤ (X.nc img : Int) - 1 ∧ rect.b ≤ (X.nr img : Int) - 1 := by
  intro scale side
  obtain ⟨hu0, hu1⟩ := hu rnd
  obtain ⟨hs1, hs2⟩ := resnet_scale_range (X.get_random_double rnd).1 hu0 (le_of_lt hu1)
  have hm0 : (0 : ℚ) ≤ resnet_mins := by rw [resnet_mins_value]; norm_num
  have hsize0 : (0 : ℚ) ≤ to_double
      (scale * to_double ((min (X.nr img) (X.nc img) : Nat) : ℚ)) :=
    to_double_nonneg _ (mul_nonneg (le_trans hm0 hs1)
      (to_double_nonneg _ (Nat.cast_nonneg _)))
  have hside : (side : Int) =
      ⌊to_double (scale * to_double ((min (X.nr img) (X.nc img) : Nat) : ℚ))⌋ := by
    have h0 := Int.floor_nonneg.mpr hsize0
    show ((resnet_side X img (X.get_random_double rnd).1 : Nat) : Int) = _
    simp only [resnet_side, trunc_to_long]
    rw [if_pos hsize0]
    exact Int.toNat_of_nonneg h0
  have hm := rectangle_of_size_moved side
    ((X.get_random_32bit_number (X.get_random_double rnd).2).1 % (X.nc img - side))
    ((X.get_random_32bit_number
      (X.get_random_32bit_number (X.get_random_double rnd).2).2).1 % (X.nr img - side))
  obtain ⟨hw, hh, hl, ht, hr, hb⟩ := hm
  have hxlt : (X.get_random_32bit_number (X.get_random_double rnd).2).1 %
      (X.nc img - side) < X.nc img - side := Nat.mod_lt _ (by omega)
  have hylt : (X.get_random_32bit_number
      (X.get_random_32bit_number (X.get_random_double rnd).2).2).1 %
      (X.nr img - side) < X.nr img - side := Nat.mod_lt _ (by omega)
  refine ⟨hs1, hs2, hside, _, _,
    make_random_cropping_rect_resnet_ok X img rnd hr63 hc63 hsc hsr, hw, hh, ?_, ?_, ?_, ?_,
    ?_, ?_⟩
  · rw [hl]; omega
  · rw [hl]; omega
  · rw [ht]; omega
  · rw [ht]; omega
  · rw [hr]; omega
  · rw [hb]; omega

/-- The theorem `background_square_fits` on `sample_image` with the draws 0, 52, 52: the
square is (52,52,97,97), of side 46. -/
theorem background_square_fits_witness :
    let scale := resnet_scale (replay.get_random_double [0, 52, 52]).1
    let side := resnet_side replay sample_image (replay.get_random_double [0, 52, 52]).1
    resnet_mins ≤ scale ∧ scale ≤ resnet_maxs ∧
    (side : Int) =
      ⌊to_double (scale *
        to_double ((min (replay.nr sample_image) (replay.nc sample_image) : Nat) : ℚ))⌋ ∧
    ∃ (rect : rectangle) (rnd1 : List Nat),
      make_random_cropping_rect_resnet replay sample_image [0, 52, 52] = (.ok rect, rnd1) ∧
      rect.width = side ∧ rect.height = side ∧
      0 ≤ rect.l ∧ rect.l < (replay.nc sample_image : Int) - side ∧
      0 ≤ rect.t ∧ rect.t < (replay.nr sample_image : Int) - side ∧
      rect.r ≤ (replay.nc sample_image : Int) - 1 ∧
      rect.b ≤ (replay.nr sample_image : Int) - 1 :=
  background_square_fits replay sample_image [0, 52, 52] replay_uniform_draws
    (by with_unfolding_all decide) (by with_unfolding_all decide)
    (by with_unfolding_all decide) (by with_unfolding_all decide)

/-- C20: background sampling does not divide by zero on an image with at least one row
and one column (dimensions that fit a `long`): every scale in `[0.466666666, 0.875]`
comes from a draw `u` in `[0,1]`, for each such scale and for each such draw the
truncated side (of the `double` product of line 235) is below both dimensions, so both
moduli of lines 238-239 are at least 1 and the function returns a rectangle; the
function runs into the zero modulus exactly when the image has no rows or no
columns. -/
theorem background_never_divides_by_zero {image σ : Type} (X : externals image σ)
    (img : image) (rnd : σ) (hu : X.uniform_draws)
    (hr63 : X.nr img < 2 ^ 63) (hc63 : X.nc img < 2 ^ 63) :
    (∀ scale : ℚ, resnet_mins ≤ scale → scale ≤ resnet_maxs →
      ∃ u : ℚ, 0 ≤ u ∧ u ≤ 1 ∧ scale = resnet_mins + u * (resnet_maxs - resnet_mins)) ∧
    (∀ scale : ℚ, resnet_mins ≤ scale → scale ≤ resnet_maxs →
      1 ≤ X.nr img → 1 ≤ X.nc img →
      (trunc_to_long (to_double
        (scale * to_double ((min (X.nr img) (X.nc img) : Nat) : ℚ)))).toNat < X.nr img ∧
      (trunc_to_long (to_double
        (scale * to_double ((min (X.nr img) (X.nc img) : Nat) : ℚ)))).toNat < X.nc img) ∧
    (∀ u : ℚ, 0 ≤ u → u ≤ 1 → 1 ≤ X.nr img → 1 ≤ X.nc img →
      resnet_side X img u < X.nr img ∧ resnet_side X img u < X.nc img ∧
      1 ≤ (((X.nc img : Int) -
        (rectangle_of_size (resnet_side X img u) (resnet_side X img u)).width) %
          2 ^ 64).toNat ∧
      1 ≤ (((X.nr img : Int) -
        (rectangle_of_size (resnet_side X img u) (resnet_side X img u)).height) %
          2 ^ 64).toNat) ∧
    (1 ≤ X.nr img → 1 ≤ X.nc img →
      ∃ (rect : rectangle) (rnd1 : σ),
        make_random_cropping_rect_resnet X img rnd = (.ok rect, rnd1)) ∧
    ((make_random_cropping_rect_resnet X img rnd).1 = .error .undefined ↔
      (X.nr img = 0 ∨ X.nc img = 0)) := by
  have hside : ∀ u : ℚ, 0 ≤ u → u ≤ 1 → 1 ≤ X.nr img → 1 ≤ X.nc img →
      resnet_side X img u < X.nr img ∧ resnet_side X img u < X.nc img := by
    intro u hu0 hu1 hr hc
    have h := (resnet_side_lt X img u hu0 hu1 hr hc).2.2
    exact ⟨lt_of_lt_of_le h (min_le_left _ _), lt_of_lt_of_le h (min_le_right _ _)⟩
  have hok : 1 ≤ X.nr img → 1 ≤ X.nc img →
      ∃ (rect : rectangle) (rnd1 : σ),
        make_random_cropping_rect_resnet X img rnd = (.ok rect, rnd1) := by
    intro hr hc
    obtain ⟨hu0, hu1⟩ := hu rnd
    obtain ⟨h1, h2⟩ := hside _ hu0 (le_of_lt hu1) hr hc
    exact ⟨_, _, make_random_cropping_rect_resnet_ok X img rnd hr63 hc63 h2 h1⟩
  refine ⟨?_, ?_, ?_, hok, ?_⟩
  · intro scale h1 h2
    have hd : (0 : ℚ) < resnet_maxs - resnet_mins := by
      rw [resnet_mins_value]; norm_num [resnet_maxs]
    refine ⟨(scale - resnet_mins) / (resnet_maxs - resnet_mins), ?_, ?_, ?_⟩
    · exact div_nonneg (by linarith) (le_of_lt hd)
    · rw [div_le_one hd]; linarith
    · field_simp
  · intro scale h1 h2 hr hc
    have hm0 : (0 : ℚ) ≤ resnet_mins := by rw [resnet_mins_value]; norm_num
    have hmaxs : resnet_maxs = 7 / 8 := by norm_num [resnet_maxs]
    have h := scaled_side_lt scale (min (X.nr img) (X.nc img)) (le_trans hm0 h1)
      (by rw [← hmaxs]; exact h2) (le_min hr hc)
    exact ⟨lt_of_lt_of_le h (min_le_left _ _), lt_of_lt_of_le h (min_le_right _ _)⟩
  · intro u hu0 hu1 hr hc
    obtain ⟨h1, h2⟩ := hside u hu0 hu1 hr hc
    have hw := rectangle_of_size_width (resnet_side X img u)
    rw [hw.1, hw.2, unsigned_difference _ _ (le_of_lt h2) hc63,
      unsigned_difference _ _ (le_of_lt h1) hr63]
    exact ⟨h1, h2, by omega, by omega⟩
  · constructor
    · intro herr
      by_contra hcon
      obtain ⟨rect, rnd1, hres⟩ := hok (by omega) (by omega)
      rw [hres] at herr
      simp at herr
    · intro hz
      have hmin : min (X.nr img) (X.nc img) = 0 := by
        rcases hz with h | h
        · rw [h]; exact Nat.zero_min _
        · rw [h]; exact Nat.min_zero _
      have hs : resnet_side X img (X.get_random_double rnd).1 = 0 := by
        simp [resnet_side, hmin, trunc_to_long, to_double_zero]
      have hw := rectangle_of_size_width 0
      have hx := unsigned_difference (X.nc img) 0 (Nat.zero_le _) hc63
      have hy := unsigned_difference (X.nr img) 0 (Nat.zero_le _) hr63
      unfold make_random_cropping_rect_resnet
      simp only [hs, hw.1, hw.2, hx, hy]
      have hzero : X.nc img - 0 = 0 ∨ X.nr img - 0 = 0 := by omega
      rw [if_pos hzero]

/-- The theorem `background_never_divides_by_zero` on `sample_image`. -/
theorem background_never_divides_by_zero_witness :
    (∀ scale : ℚ, resnet_mins ≤ scale → scale ≤ resnet_maxs →
      ∃ u : ℚ, 0 ≤ u ∧ u ≤ 1 ∧ scale = resnet_mins + u * (resnet_maxs - resnet_mins)) ∧
    (∀ scale : ℚ, resnet_mins ≤ scale → scale ≤ resnet_maxs →
      1 ≤ replay.nr sample_image → 1 ≤ replay.nc sample_image →
      (trunc_to_long (to_double (scale * to_double
        ((min (replay.nr sample_image) (replay.nc sample_image) : Nat) : ℚ)))).toNat <
        replay.nr sample_image ∧
      (trunc_to_long (to_double (scale * to_double
        ((min (replay.nr sample_image) (replay.nc sample_image) : Nat) : ℚ)))).toNat <
        replay.nc sample_image) ∧
    (∀ u : ℚ, 0 ≤ u → u ≤ 1 → 1 ≤ replay.nr sample_image → 1 ≤ replay.nc sample_image →
      resnet_side replay sample_image u < replay.nr sample_image ∧
      resnet_side replay sample_image u < replay.nc sample_image ∧
      1 ≤ (((replay.nc sample_image : Int) -
        (rectangle_of_size (resnet_side replay sample_image u)
          (resnet_side replay sample_image u)).width) % 2 ^ 64).toNat ∧
      1 ≤ (((replay.nr sample_image : Int) -
        (rectangle_of_size (resnet_side replay sample_image u)
          (resnet_side replay sample_image u)).height) % 2 ^ 64).toNat) ∧
    (1 ≤ replay.nr sample_image → 1 ≤ replay.nc sample_image →
      ∃ (rect : rectangle) (rnd1 : List Nat),
        make_random_cropping_rect_resnet replay sample_image [999, 7, 8] =
          (.ok rect, rnd1)) ∧
    ((make_random_cropping_rect_resnet replay sample_image [999, 7, 8]).1 =
        .error .undefined ↔
      (replay.nr sample_image = 0 ∨ replay.nc sample_image = 0)) :=
  background_never_divides_by_zero replay sample_image [999, 7, 8] replay_uniform_draws
    (by with_unfolding_all decide) (by with_unfolding_all decide)

/-! ## The flip step -/

theorem draw_should_flip_crop_eq {image σ : Type} (X : externals image σ)
    (self : random_cropper) (rnd : σ) :
    (draw_should_flip_crop X self rnd).1 =
      (self.randomly_flip && decide ((X.get_random_double rnd).1 > 1 / 2)) := by
  cases h : self.randomly_flip <;> simp [draw_should_flip_crop, h]

/-- C19: in the single image crop the flip flag is
`randomly_flip AND (uniform draw > 0.5)`, so it is never set when `randomly_flip` is
false.  The output list is the list of the crop mapping (the unflipped output), and,
when the flag is set, that list with each rectangle replaced by its left-right
reflection about the bounds of the returned chip: same length, same order, same ignore
flags.  The label and the confidence of every output box are those of the input box it
comes from. -/
theorem flip_changes_only_rectangles {image σ : Type} (fuel : Nat) (X : externals image σ)
    (self : random_cropper) (img : image) (rects : List mmod_rect) (crop : image)
    (crop_rects : List mmod_rect) (rnd rnd1 : σ) (crop_plan : chip_details)
    (should_flip_crop : Bool)
    (hplan : make_crop_plan fuel X self img rects rnd =
      (.ok (crop_plan, should_flip_crop), rnd1)) :
    (∃ (crop_rect : rectangle) (rnd2 : σ),
      choose_crop_rect fuel X self img rects rnd = (.ok crop_rect, rnd2) ∧
      should_flip_crop =
        (self.randomly_flip && decide ((X.get_random_double rnd2).1 > 1 / 2))) ∧
    (self.randomly_flip = false → should_flip_crop = false) ∧
    ∃ (crop1 : image) (out unflipped : List mmod_rect),
      operator_single fuel X self img rects crop crop_rects rnd = (.ok (), crop1, out, rnd1) ∧
      unflipped = map_rects_loop (get_rect X (X.extract_image_chip img crop_plan))
        (X.get_mapping_to_chip crop_plan) (min_object_height_absolute self crop_plan)
        rects [] ∧
      out = (if should_flip_crop then
        unflipped.map (fun b =>
          { b with rect := (flip_rect_left_right b.rect (get_rect X crop1)) })
        else unflipped) ∧
      out.length = unflipped.length ∧
      out.map (fun b => b.ignore) = unflipped.map (fun b => b.ignore) ∧
      List.Forall₂
        (fun b o => o.label = b.label ∧ o.detection_confidence = b.detection_confidence)
        (rects.filter (fun b => decide
          (((get_rect X (X.extract_image_chip img crop_plan)).intersect
            (X.get_mapping_to_chip crop_plan b.rect)).area ≠ 0))) out := by
  obtain ⟨crop_rect, rnd2, hc, _, hf, _⟩ :=
    make_crop_plan_ok fuel X self img rects rnd rnd1 crop_plan should_flip_crop hplan
  rw [draw_should_flip_crop_eq] at hf
  refine ⟨⟨crop_rect, rnd2, hc, hf⟩, ?_, _, _, _, operator_single_of_plan fuel X self img
    rects crop crop_rects rnd rnd1 crop_plan should_flip_crop hplan, rfl, ?_, ?_, ?_, ?_⟩
  · intro h
    rw [hf, h]
    rfl
  · cases should_flip_crop
    · simp [apply_crop_plan]
    · simp [apply_crop_plan, flip_crop_rects_eq_map]
  · cases should_flip_crop
    · simp [apply_crop_plan]
    · simp [apply_crop_plan, flip_crop_rects_eq_map]
  · cases should_flip_crop
    · simp [apply_crop_plan]
    · simp [apply_crop_plan, flip_crop_rects_eq_map, Function.comp_def]
  · rw [apply_crop_plan_rects, List.map_map]
    apply forall₂_map_right_of
    intro b _
    cases should_flip_crop <;> simp [mapped_box]

/-- The theorem `flip_changes_only_rectangles` on the flipped crop of `sample_boxes`. -/
theorem flip_changes_only_rectangles_witness :
    (∃ (crop_rect : rectangle) (rnd2 : List Nat),
      choose_crop_rect 5 replay random_cropper.default_constructed sample_image
        sample_boxes sample_draws_flipped = (.ok crop_rect, rnd2) ∧
      true = (random_cropper.default_constructed.randomly_flip &&
        decide ((replay.get_random_double rnd2).1 > 1 / 2))) ∧
    (random_cropper.default_constructed.randomly_flip = false → true = false) ∧
    ∃ (crop1 : sized_image) (out unflipped : List mmod_rect),
      operator_single 5 replay random_cropper.default_constructed sample_image sample_boxes
        ⟨0, 0⟩ [] sample_draws_flipped = (.ok (), crop1, out, []) ∧
      unflipped = map_rects_loop
        (get_rect replay (replay.extract_image_chip sample_image
          ⟨⟨-6, -6, 16, 16⟩, 0, 300, 300⟩))
        (replay.get_mapping_to_chip ⟨⟨-6, -6, 16, 16⟩, 0, 300, 300⟩)
        (min_object_height_absolute random_cropper.default_constructed
          ⟨⟨-6, -6, 16, 16⟩, 0, 300, 300⟩)
        sample_boxes [] ∧
      out = (if true then
        unflipped.map (fun b =>
          { b with rect := (flip_rect_left_right b.rect (get_rect replay crop1)) })
        else unflipped) ∧
      out.length = unflipped.length ∧
      out.map (fun b => b.ignore) = unflipped.map (fun b => b.ignore) ∧
      List.Forall₂
        (fun b o => o.label = b.label ∧ o.detection_confidence = b.detection_confidence)
        (sample_boxes.filter (fun b => decide
          (((get_rect replay (replay.extract_image_chip sample_image
              ⟨⟨-6, -6, 16, 16⟩, 0, 300, 300⟩)).intersect
            (replay.get_mapping_to_chip ⟨⟨-6, -6, 16, 16⟩, 0, 300, 300⟩ b.rect)).area ≠ 0)))
        out :=
  flip_changes_only_rectangles 5 replay random_cropper.default_constructed sample_image
    sample_boxes ⟨0, 0⟩ [] sample_draws_flipped [] ⟨⟨-6, -6, 16, 16⟩, 0, 300, 300⟩ true
    (by with_unfolding_all rfl)

/-! ## The planner at concrete inputs -/

/-- The theorem `branch_choice` after `set_background_crops_fraction(0)`: with
`sample_boxes` the object centered branch is taken. -/
theorem branch_choice_witness :
    object_branch_taken replay
      (random_cropper.default_constructed.set_background_crops_fraction 0).2
      sample_boxes sample_draws = true ∧
    choose_crop_rect 5 replay
      (random_cropper.default_constructed.set_background_crops_fraction 0).2
      sample_image sample_boxes sample_draws =
      object_centered_crop 5 replay
        (random_cropper.default_constructed.set_background_crops_fraction 0).2
        sample_boxes (replay.get_random_double sample_draws).2 :=
  (branch_choice 5 replay
    (random_cropper.default_constructed.set_background_crops_fraction 0).2
    sample_image sample_boxes sample_draws).2.2.2.2 replay_uniform_draws
    (by with_unfolding_all rfl)
    ⟨⟨⟨0, 0, 10, 10⟩, 0, false, "a"⟩, by simp [sample_boxes], rfl⟩

/-- The theorem `randomly_pick_rect_spec` on a list with an ignored box and a usable
one: the draws 4 and 6 hit the ignored box, draw number 2 (the value 7) is the first to
hit the usable one, and fuel 2 is enough. -/
theorem randomly_pick_rect_spec_witness :
    randomly_pick_rect 2 replay
      [⟨⟨2, 2, 9, 9⟩, 0, true, "d"⟩, ⟨⟨0, 0, 10, 10⟩, 0, false, "a"⟩] [4, 6, 7, 9] =
      (.ok (nth_64bit_draw replay 2 [4, 6, 7, 9] %
          [(⟨⟨2, 2, 9, 9⟩, 0, true, "d"⟩ : mmod_rect), ⟨⟨0, 0, 10, 10⟩, 0, false, "a"⟩].length),
        after_64bit_draws replay (2 + 1) [4, 6, 7, 9]) ∧
    nth_64bit_draw replay 2 [4, 6, 7, 9] %
        [(⟨⟨2, 2, 9, 9⟩, 0, true, "d"⟩ : mmod_rect), ⟨⟨0, 0, 10, 10⟩, 0, false, "a"⟩].length <
      [(⟨⟨2, 2, 9, 9⟩, 0, true, "d"⟩ : mmod_rect), ⟨⟨0, 0, 10, 10⟩, 0, false, "a"⟩].length :=
  (randomly_pick_rect_spec 2 replay random_cropper.default_constructed sample_image
    [⟨⟨2, 2, 9, 9⟩, 0, true, "d"⟩, ⟨⟨0, 0, 10, 10⟩, 0, false, "a"⟩] [4, 6, 7, 9]).2.2.1 2
    (Nat.le_refl 2)
    (by
      intro j hj b hb
      have hcases : j = 0 ∨ j = 1 := by omega
      rcases hcases with rfl | rfl
      · have e : [(⟨⟨2, 2, 9, 9⟩, 0, true, "d"⟩ : mmod_rect),
            ⟨⟨0, 0, 10, 10⟩, 0, false, "a"⟩][nth_64bit_draw replay 0 [4, 6, 7, 9] %
            [(⟨⟨2, 2, 9, 9⟩, 0, true, "d"⟩ : mmod_rect),
              ⟨⟨0, 0, 10, 10⟩, 0, false, "a"⟩].length]? =
            some ⟨⟨2, 2, 9, 9⟩, 0, true, "d"⟩ := by with_unfolding_all rfl
        rw [e] at hb
        cases hb
        rfl
      · have e : [(⟨⟨2, 2, 9, 9⟩, 0, true, "d"⟩ : mmod_rect),
            ⟨⟨0, 0, 10, 10⟩, 0, false, "a"⟩][nth_64bit_draw replay 1 [4, 6, 7, 9] %
            [(⟨⟨2, 2, 9, 9⟩, 0, true, "d"⟩ : mmod_rect),
              ⟨⟨0, 0, 10, 10⟩, 0, false, "a"⟩].length]? =
            some ⟨⟨2, 2, 9, 9⟩, 0, true, "d"⟩ := by with_unfolding_all rfl
        rw [e] at hb
        cases hb
        rfl)
    ⟨⟨⟨0, 0, 10, 10⟩, 0, false, "a"⟩, by with_unfolding_all rfl, rfl⟩

/-! ## The object centered plan -/

/-- The rounding of line 138 at `min_object_height = 0.075` and 300 chip rows: the
`double` product is 22.5, so the threshold is 23, although the `double` 0.075 is below
75/1000 and the exact product would round to 22.  In the crop shown the second box is
mapped to 22 rows and is set to ignore. -/
theorem min_object_height_absolute_example :
    small_object_cropper.min_object_height = 5404319552844595 / 72057594037927936 ∧
    min_object_height_absolute small_object_cropper ⟨⟨0, 0, 0, 0⟩, 0, 300, 300⟩ = 23 ∧
    std_round (small_object_cropper.min_object_height * 300) = 22 ∧
    operator_single 5 replay small_object_cropper sample_image
      [⟨⟨0, 0, 10, 10⟩, 0, false, "a"⟩, ⟨⟨2, 3, 5, 5⟩, 0, false, "t"⟩] ⟨0, 0⟩ []
      [500, 0, 500, 500, 500, 0, 500] =
      (.ok (), ⟨300, 300⟩,
        [⟨⟨96, 96, 204, 204⟩, 0, false, "a"⟩, ⟨⟨118, 129, 150, 150⟩, 0, true, "t"⟩], []) := by
  refine ⟨?_, ?_, ?_, ?_⟩ <;> with_unfolding_all rfl

end dlib
